import Mathlib

/-
Shallow embedding of `lib/sqlalchemy/sql/crud.py`: the parameter-resolution
engine that decides, for every target column of an INSERT or UPDATE, what
appears in the column/value lists, and classifies columns into retrieval
strategies (RETURNING, postfetch, prefetch, lastrowid).

External collaborators (the expression renderer, the schema model's quoting,
dialect capability flags) are modelled as data: rendered SQL fragments are
kept structured (`SqlVal`) so that bind-parameter names, requiredness and
the crud-created marker (`BindParameter._is_crud`) stay observable.
Identifier quoting is out of scope, so `format_column` renders a column as
its key (column `.name` and `.key` are merged in the model).
-/

namespace SqlCrud

/-- Default generators attached to a column (`Sequence`, SQL-expression
default via `is_clause_element`, or a Python-side procedural default). -/
inductive DefaultSpec where
  | sequence (seqName : String) (seqOptional : Bool)
  | clauseElement (text : String)
  | procedural
deriving DecidableEq

def DefaultSpec.is_sequence : DefaultSpec → Bool
  | .sequence _ _ => true
  | _ => false

def DefaultSpec.is_clause_element : DefaultSpec → Bool
  | .clauseElement _ => true
  | _ => false

/-- `default.optional` is only meaningful for sequences. -/
def DefaultSpec.seqOpt : DefaultSpec → Bool
  | .sequence _ o => o
  | _ => false

/-- A table column.  `table_name` is the owning table's name (Python uses a
back-reference `c.table`); `server_default` / `server_onupdate` model the
presence of DDL-level defaults. -/
structure Column where
  table_name : String
  key : String
  primary_key : Bool
  nullable : Bool
  default : Option DefaultSpec
  onupdate : Option DefaultSpec
  server_default : Bool
  server_onupdate : Bool
deriving DecidableEq

/-- A table: ordered columns, optional autoincrement column (identified by
key, Python compares object identity), and the `implicit_returning` flag. -/
structure Table where
  name : String
  columns : List Column
  autoincrement_key : Option String
  implicit_returning : Bool
deriving DecidableEq

/-- Identity test `c is stmt.table._autoincrement_column`. -/
def Table.is_autoincrement_column (t : Table) (c : Column) : Bool :=
  c.table_name == t.name && t.autoincrement_key == some c.key

def Table.getCol (t : Table) (k : String) : Option Column :=
  t.columns.find? (fun c => c.key == k)

/-- A key on the left side of a declared value: a plain string, a column
object, or a non-column SQL expression (e.g. an array-slice target). -/
inductive DMLCol where
  | name (s : String)
  | col (c : Column)
  | expr (text : String)
deriving DecidableEq

/-- A resolved parameter key: bare column key, or `(tableName, key)` for
extra-table columns of a multi-table UPDATE. -/
inductive ParamKey where
  | plain (k : String)
  | qualified (tbl : String) (k : String)
deriving DecidableEq

/-- Parameter-dict keys may be `None` in Python (a non-column expression
coerces to key `None`), hence `Option`. -/
abbrev OPK := Option ParamKey

/-- A declared right-side value: the REQUIRED marker, a plain literal, a
caller bind-parameter handle (`uniqueAnon` models `value.unique` with a
truncated anonymous label), or a SQL expression. -/
inductive RawVal where
  | required
  | literal (v : Nat)
  | bindHandle (hname : String) (uniqueAnon : Bool)
  | sqlExpr (text : String)
deriving DecidableEq

/-- `coercions._is_literal`: true for plain values including REQUIRED. -/
def RawVal.isLiteral : RawVal → Bool
  | .required => true
  | .literal _ => true
  | _ => false

def RawVal.isBindParameter : RawVal → Bool
  | .bindHandle _ _ => true
  | _ => false

/-- A rendered value slot in the plan: a bind-parameter placeholder (name,
required flag, `_is_crud` marker), a rendered SQL text fragment, or a
sequence next-value expression. -/
inductive SqlVal where
  | bind (bname : String) (breq : Bool) (isCrud : Bool)
  | sql (text : String)
  | seqNext (seqName : String)
deriving DecidableEq

/-- Non-fatal warnings accumulated during the scan. -/
inductive Warning where
  | pkNoAnticipatedValue (tableName : String) (colKey : String)
deriving DecidableEq

/-- Dialect capability flags (external, read-only). -/
structure Dialect where
  supports_sequences : Bool
  sequences_optional : Bool
  implicit_returning : Bool
  postfetch_lastrowid : Bool
  preexecute_autoincrement_sequences : Bool
  insert_executemany_returning : Bool
  supports_default_metavalue : Bool
deriving DecidableEq

/-- The declared-value source of the compile state, dispatched in the source
priority order: multi-row parameters, ordered values, dict parameters, or
none at all (`_no_parameters`). -/
inductive ParamSource where
  | noParams
  | single (d : List (DMLCol × RawVal))
  | ordered (l : List (DMLCol × RawVal))
  | multi (rows : List (List (DMLCol × RawVal)))
deriving DecidableEq

def ParamSource.hasMulti : ParamSource → Bool
  | .multi _ => true
  | _ => false

def ParamSource.isNoParams : ParamSource → Bool
  | .noParams => true
  | _ => false

def ParamSource.rows : ParamSource → List (List (DMLCol × RawVal))
  | .multi rows => rows
  | _ => []

/-- The DML statement: target table, `_inline`, explicit `_returning`,
`return_defaults` request with optional column filter, and the
insert-from-select column names. -/
structure Stmt where
  table : Table
  inline : Bool
  returning : Bool
  return_defaults : Bool
  return_defaults_columns : List Column
  select_names : Option (List String)
  include_insert_from_select_defaults : Bool
deriving DecidableEq

/-- Compile state: statement kind, extra FROM tables (multi-table UPDATE),
declared values, optional explicit parameter ordering. -/
structure CompileState where
  isinsert : Bool
  extra_froms : List Table
  paramSource : ParamSource
  parameter_ordering : Option (List DMLCol)
  include_table_with_column_exprs : Bool
deriving DecidableEq

def CompileState.isupdate (cs : CompileState) : Bool := !cs.isinsert

/-- Compiler-side inputs: dialect, executemany mode, the caller column-key
filter, and whether we are inside a CTE (`visiting_cte` in `kw`). -/
structure CompilerIn where
  dialect : Dialect
  for_executemany : Bool
  column_keys : Option (List DMLCol)
  visiting_cte : Bool
deriving DecidableEq

structure Ctx where
  comp : CompilerIn
  stmt : Stmt
  cs : CompileState
  toplevel : Bool
deriving DecidableEq

/-- The returning-policy flags of `_get_returning_modifiers`.
`implicit_return_defaults` is `False` or a set of columns in Python;
`none` models `False`. -/
structure RetMod where
  need_pks : Bool
  implicit_returning : Bool
  implicit_return_defaults : Option (List Column)
  postfetch_lastrowid : Bool
deriving DecidableEq

def _get_returning_modifiers (comp : CompilerIn) (stmt : Stmt) (cs : CompileState)
    (toplevel : Bool) : RetMod :=
  let need_pks :=
    toplevel && cs.isinsert && !stmt.inline
      && (!comp.for_executemany
          || (comp.dialect.insert_executemany_returning && stmt.return_defaults))
      && !stmt.returning
      && !cs.paramSource.hasMulti
  let implicit_returning :=
    need_pks && comp.dialect.implicit_returning && stmt.table.implicit_returning
  let ird_bool :=
    if cs.isinsert then
      implicit_returning && stmt.return_defaults
    else
      comp.dialect.implicit_returning && stmt.table.implicit_returning
        && stmt.return_defaults
  let implicit_return_defaults : Option (List Column) :=
    if ird_bool then
      if stmt.return_defaults_columns.isEmpty then some stmt.table.columns
      else some stmt.return_defaults_columns
    else none
  { need_pks := need_pks
    implicit_returning := implicit_returning
    implicit_return_defaults := implicit_return_defaults
    postfetch_lastrowid := need_pks && comp.dialect.postfetch_lastrowid }

def Ctx.retmod (ctx : Ctx) : RetMod :=
  _get_returning_modifiers ctx.comp ctx.stmt ctx.cs ctx.toplevel

/-- `implicit_return_defaults and c in implicit_return_defaults`; an empty
Python set is falsy, which coincides with empty-list membership. -/
def irdContains (ird : Option (List Column)) (c : Column) : Bool :=
  match ird with
  | some l => l.contains c
  | none => false

/-- The spec's formula for `needGeneratedKeys`, written from the spec text:
`topLevel ∧ isInsert ∧ ¬inline ∧ (¬batched ∨ (batchedReturningSupported ∧
wantsReturnDefaults)) ∧ ¬hasExplicitReturning ∧ ¬isMultiRowLiteralValues`. -/
def needGeneratedKeysSpec (comp : CompilerIn) (stmt : Stmt) (cs : CompileState)
    (toplevel : Bool) : Bool :=
  toplevel && cs.isinsert && !stmt.inline
    && (!comp.for_executemany
        || (comp.dialect.insert_executemany_returning && stmt.return_defaults))
    && !stmt.returning
    && !cs.paramSource.hasMulti

/-- The spec's formula for `implicitReturningAvailable`:
`needGeneratedKeys ∧ dialectImplicitReturning ∧ tableAllowsImplicitReturning`. -/
def implicitReturningAvailableSpec (comp : CompilerIn) (stmt : Stmt) (cs : CompileState)
    (toplevel : Bool) : Bool :=
  needGeneratedKeysSpec comp stmt cs toplevel
    && comp.dialect.implicit_returning && stmt.table.implicit_returning

/-! ## Key getters (`_key_getters_for_crud_column`) -/

/-- `key.table in _et`: membership of a column's owning table in the
extra-FROM set, compared by table name. -/
def _in_extra_froms (cs : CompileState) (c : Column) : Bool :=
  cs.extra_froms.any (fun t => t.name == c.table_name)

/-- Qualification activates only for UPDATE with a non-empty extra-tables
set. -/
def _use_qualified (cs : CompileState) : Bool :=
  cs.isupdate && !cs.extra_froms.isEmpty

/-- `_column_as_key`: coerce a declared key to a parameter-dict key; a
non-column expression coerces to `None`. -/
def _column_as_key (cs : CompileState) : DMLCol → OPK
  | .name s => some (.plain s)
  | .col c =>
    if _use_qualified cs && _in_extra_froms cs c then
      some (.qualified c.table_name c.key)
    else some (.plain c.key)
  | .expr _ => none

def _getattr_col_key (cs : CompileState) (c : Column) : ParamKey :=
  if _use_qualified cs && _in_extra_froms cs c then .qualified c.table_name c.key
  else .plain c.key

def _col_bind_name (cs : CompileState) (c : Column) : String :=
  if _use_qualified cs && _in_extra_froms cs c then c.table_name ++ "_" ++ c.key
  else c.key

/-- `compiler.preparer.format_column(c)`: quoting is external, render the
column as its key. -/
def format_column (c : Column) : String := c.key

def format_column_use (c : Column) (use_table : Bool) : String :=
  if use_table then c.table_name ++ "." ++ c.key else c.key

/-! ## The parameter dict and helpers -/

/-- An insertion-ordered map mirroring a Python dict keyed by parameter
keys (possibly `None`). -/
abbrev PMap := List (OPK × RawVal)

def pmContains (m : PMap) (k : OPK) : Bool := m.any (fun p => p.1 == k)

def pmLookup (m : PMap) (k : OPK) : Option RawVal :=
  (m.find? (fun p => p.1 == k)).map (fun p => p.2)

/-- `dict.pop`: remove the entry for a key. -/
def pmErase (m : PMap) (k : OPK) : PMap := m.filter (fun p => !(p.1 == k))

/-- `dict[k] = v`: overwrite in place, or append at the end. -/
def pmInsert (m : PMap) (k : OPK) (v : RawVal) : PMap :=
  if pmContains m k then m.map (fun p => if p.1 == k then (k, v) else p)
  else m ++ [(k, v)]

def pmSetdefault (m : PMap) (k : OPK) (v : RawVal) : PMap :=
  if pmContains m k then m else m ++ [(k, v)]

def pmKeys (m : PMap) : List OPK := m.map (fun p => p.1)

/-- Membership of a raw key in an `spd` dict (keyed by raw `DMLCol`). -/
def spdContains (l : List (DMLCol × RawVal)) (k : DMLCol) : Bool :=
  l.any (fun p => p.1 == k)

/-- One column/value plan entry: left side, rendered column text, value. -/
abbrev Triple := DMLCol × String × Option SqlVal

/-- The compiler's retrieval collections plus accumulated warnings, reset
fresh at the start of each `_get_crud_params` call. -/
structure Acc where
  postfetch : List Column := []
  insert_prefetch : List Column := []
  update_prefetch : List Column := []
  implicit_returning : List Column := []
  postfetch_lastrowid : Bool := false
  warnings : List Warning := []
deriving DecidableEq

structure ScanSt where
  parameters : PMap
  values : List Triple
  acc : Acc
deriving DecidableEq

/-! ## Bind-parameter creation and rendering -/

/-- `_create_bind_param`: a named bind parameter marked `_is_crud`. -/
def _create_bind_param (c : Column) (_v : Option RawVal) (breq : Bool)
    (bname : Option String) : SqlVal :=
  SqlVal.bind (bname.getD c.key) breq true

/-- `_handle_values_anonymous_param`: rename a caller-supplied unique
anonymous parameter to the crud name, unless inside a CTE; explicit names
are kept.  The result is not `_is_crud`. -/
def _handle_values_anonymous_param (comp : CompilerIn) (hname : String)
    (uniqueAnon : Bool) (crudName : String) : SqlVal :=
  if !comp.visiting_cte && uniqueAnon then SqlVal.bind crudName false false
  else SqlVal.bind hname false false

def _create_insert_prefetch_bind_param (c : Column) (bname : Option String)
    (acc : Acc) : SqlVal × Acc :=
  (_create_bind_param c none false bname,
   { acc with insert_prefetch := acc.insert_prefetch ++ [c] })

def _create_update_prefetch_bind_param (c : Column) (bname : Option String)
    (acc : Acc) : SqlVal × Acc :=
  (_create_bind_param c none false bname,
   { acc with update_prefetch := acc.update_prefetch ++ [c] })

/-- `compiler.process(c.default, **kw)` for a sequence default. -/
def processSeq (seqName : String) : SqlVal := SqlVal.seqNext seqName

/-- `compiler.process(c.default.arg.self_group(), **kw)`. -/
def processClause (text : String) : SqlVal := SqlVal.sql text

/-- `compiler.process(value.self_group(), **kw)` on a non-literal declared
value: a SQL expression renders as text, a bind handle renders under its
own name (not `_is_crud`).  Literals never take this path. -/
def processRawExpr : RawVal → SqlVal
  | .sqlExpr t => SqlVal.sql t
  | .bindHandle n _ => SqlVal.bind n false false
  | .required => SqlVal.sql ""
  | .literal _ => SqlVal.sql ""

def _warn_pk_with_no_anticipated_value (c : Column) (acc : Acc) : Acc :=
  { acc with warnings := acc.warnings ++ [Warning.pkNoAnticipatedValue c.table_name c.key] }

/-! ## Per-column appenders -/

/-- `_append_param_parameter`: a declared value is present for the column. -/
def _append_param_parameter (ctx : Ctx) (rm : RetMod) (c : Column) (col_key : OPK)
    (st : ScanSt) : ScanSt :=
  match pmLookup st.parameters col_key with
  | none => st
  | some value =>
    let parameters := pmErase st.parameters col_key
    let col_value := format_column_use c ctx.cs.include_table_with_column_exprs
    let crudName :=
      if ctx.cs.paramSource.hasMulti then _col_bind_name ctx.cs c ++ "_m0"
      else _col_bind_name ctx.cs c
    if value.isLiteral then
      let v := _create_bind_param c (some value) (value == RawVal.required) (some crudName)
      { st with parameters := parameters
                values := st.values ++ [(DMLCol.col c, col_value, some v)] }
    else if value.isBindParameter then
      let v :=
        match value with
        | .bindHandle hn ua => _handle_values_anonymous_param ctx.comp hn ua crudName
        | _ => SqlVal.sql ""
      { st with parameters := parameters
                values := st.values ++ [(DMLCol.col c, col_value, some v)] }
    else
      let v := processRawExpr value
      let acc :=
        if ctx.cs.isupdate then
          if irdContains rm.implicit_return_defaults c then
            { st.acc with implicit_returning := st.acc.implicit_returning ++ [c] }
          else
            { st.acc with postfetch := st.acc.postfetch ++ [c] }
        else
          if c.primary_key then
            if rm.implicit_returning then
              { st.acc with implicit_returning := st.acc.implicit_returning ++ [c] }
            else if ctx.comp.dialect.postfetch_lastrowid then
              { st.acc with postfetch_lastrowid := true }
            else st.acc
          else if irdContains rm.implicit_return_defaults c then
            { st.acc with implicit_returning := st.acc.implicit_returning ++ [c] }
          else
            { st.acc with postfetch := st.acc.postfetch ++ [c] }
      { parameters := parameters
        values := st.values ++ [(DMLCol.col c, col_value, some v)]
        acc := acc }

/-- `_append_param_insert_pk_returning`: generated pk value, RETURNING
available. -/
def _append_param_insert_pk_returning (ctx : Ctx) (c : Column) (st : ScanSt) : ScanSt :=
  match c.default with
  | some (.sequence sname sopt) =>
    let st :=
      if ctx.comp.dialect.supports_sequences
          && (!sopt || !ctx.comp.dialect.sequences_optional) then
        { st with values := st.values ++ [(DMLCol.col c, format_column c, some (processSeq sname))] }
      else st
    { st with acc := { st.acc with implicit_returning := st.acc.implicit_returning ++ [c] } }
  | some (.clauseElement t) =>
    let st := { st with values := st.values ++ [(DMLCol.col c, format_column c, some (processClause t))] }
    { st with acc := { st.acc with implicit_returning := st.acc.implicit_returning ++ [c] } }
  | some .procedural =>
    let (v, acc) := _create_insert_prefetch_bind_param c none st.acc
    { st with values := st.values ++ [(DMLCol.col c, format_column c, some v)], acc := acc }
  | none =>
    if ctx.stmt.table.is_autoincrement_column c || c.server_default then
      { st with acc := { st.acc with implicit_returning := st.acc.implicit_returning ++ [c] } }
    else if !c.nullable then
      { st with acc := _warn_pk_with_no_anticipated_value c st.acc }
    else st

/-- `_append_param_insert_pk_no_returning`: generated pk value, RETURNING
not usable. -/
def _append_param_insert_pk_no_returning (ctx : Ctx) (c : Column) (st : ScanSt) : ScanSt :=
  let d := ctx.comp.dialect
  let cond1 :=
    match c.default with
    | some df =>
      !df.is_sequence
        || (d.supports_sequences && (!df.seqOpt || !d.sequences_optional))
    | none => false
  let cond2 :=
    ctx.stmt.table.is_autoincrement_column c
      && !d.postfetch_lastrowid
      && ((match c.default with
           | some df => df.is_sequence && d.supports_sequences
           | none => false)
          || (c.default == none && d.preexecute_autoincrement_sequences))
  if cond1 || cond2 then
    let (v, acc) := _create_insert_prefetch_bind_param c none st.acc
    { st with values := st.values ++ [(DMLCol.col c, format_column c, some v)], acc := acc }
  else if c.default == none && !c.server_default && !c.nullable
      && !ctx.stmt.table.is_autoincrement_column c then
    { st with acc := _warn_pk_with_no_anticipated_value c st.acc }
  else if d.postfetch_lastrowid then
    { st with acc := { st.acc with postfetch_lastrowid := true } }
  else st

/-- `_append_param_insert_hasdefault`: non-pk-generating insert column with
a client default (the caller guarantees `c.default` is present). -/
def _append_param_insert_hasdefault (ctx : Ctx) (rm : RetMod) (c : Column)
    (st : ScanSt) : ScanSt :=
  match c.default with
  | none => st
  | some (.sequence sname sopt) =>
    if ctx.comp.dialect.supports_sequences
        && (!sopt || !ctx.comp.dialect.sequences_optional) then
      let st := { st with values := st.values ++ [(DMLCol.col c, format_column c, some (processSeq sname))] }
      if irdContains rm.implicit_return_defaults c then
        { st with acc := { st.acc with implicit_returning := st.acc.implicit_returning ++ [c] } }
      else if !c.primary_key then
        { st with acc := { st.acc with postfetch := st.acc.postfetch ++ [c] } }
      else st
    else st
  | some (.clauseElement t) =>
    let st := { st with values := st.values ++ [(DMLCol.col c, format_column c, some (processClause t))] }
    if irdContains rm.implicit_return_defaults c then
      { st with acc := { st.acc with implicit_returning := st.acc.implicit_returning ++ [c] } }
    else if !c.primary_key then
      { st with acc := { st.acc with postfetch := st.acc.postfetch ++ [c] } }
    else st
  | some .procedural =>
    let (v, acc) := _create_insert_prefetch_bind_param c none st.acc
    { st with values := st.values ++ [(DMLCol.col c, format_column c, some v)], acc := acc }

/-- Tail of `_append_param_update`: the `server_onupdate` elif and the final
implicit-return-defaults elif (reached when there is no usable onupdate). -/
def _append_param_update_tail (ctx : Ctx) (rm : RetMod) (c : Column) (st : ScanSt) : ScanSt :=
  if c.server_onupdate then
    if irdContains rm.implicit_return_defaults c then
      { st with acc := { st.acc with implicit_returning := st.acc.implicit_returning ++ [c] } }
    else
      { st with acc := { st.acc with postfetch := st.acc.postfetch ++ [c] } }
  else if rm.implicit_return_defaults.isSome
      && (!ctx.stmt.return_defaults_columns.isEmpty || !ctx.stmt.return_defaults)
      && irdContains rm.implicit_return_defaults c then
    { st with acc := { st.acc with implicit_returning := st.acc.implicit_returning ++ [c] } }
  else st

/-- `_append_param_update`: update column with no declared value. -/
def _append_param_update (ctx : Ctx) (rm : RetMod) (c : Column) (st : ScanSt) : ScanSt :=
  let include_table := ctx.cs.include_table_with_column_exprs
  match c.onupdate with
  | some (.clauseElement t) =>
    let st := { st with values := st.values
        ++ [(DMLCol.col c, format_column_use c include_table, some (processClause t))] }
    if irdContains rm.implicit_return_defaults c then
      { st with acc := { st.acc with implicit_returning := st.acc.implicit_returning ++ [c] } }
    else
      { st with acc := { st.acc with postfetch := st.acc.postfetch ++ [c] } }
  | some .procedural =>
    let (v, acc) := _create_update_prefetch_bind_param c none st.acc
    { st with
        values := st.values ++ [(DMLCol.col c, format_column_use c include_table, some v)],
        acc := acc }
  | some (.sequence _ _) =>
    -- a sequence onupdate fails the `not is_sequence` guard and falls
    -- through to the elif chain
    _append_param_update_tail ctx rm c st
  | none => _append_param_update_tail ctx rm c st

/-! ## The column scan (`_scan_cols`) -/

def _scan_cols_step (ctx : Ctx) (rm : RetMod) (check_columns : List ParamKey)
    (st : ScanSt) (c : Column) : ScanSt :=
  let col_key := _getattr_col_key ctx.cs c
  if pmContains st.parameters (some col_key) && !check_columns.contains col_key then
    _append_param_parameter ctx rm c (some col_key) st
  else if ctx.cs.isinsert then
    if c.primary_key && rm.need_pks then
      if rm.implicit_returning then
        _append_param_insert_pk_returning ctx c st
      else
        _append_param_insert_pk_no_returning ctx c st
    else if c.default.isSome then
      _append_param_insert_hasdefault ctx rm c st
    else if c.server_default then
      if irdContains rm.implicit_return_defaults c then
        { st with acc := { st.acc with implicit_returning := st.acc.implicit_returning ++ [c] } }
      else if !c.primary_key then
        { st with acc := { st.acc with postfetch := st.acc.postfetch ++ [c] } }
      else st
    else if irdContains rm.implicit_return_defaults c then
      { st with acc := { st.acc with implicit_returning := st.acc.implicit_returning ++ [c] } }
    else if c.primary_key && !ctx.stmt.table.is_autoincrement_column c && !c.nullable then
      { st with acc := _warn_pk_with_no_anticipated_value c st.acc }
    else st
  else
    _append_param_update ctx rm c st

/-- The column list scanned: the declared parameter ordering first (string
keys resolving to table columns), then the remaining table columns; or
plain table order. -/
def _scan_cols_collist (ctx : Ctx) : List Column :=
  match ctx.cs.parameter_ordering with
  | some po =>
    let parameter_ordering := po.map (_column_as_key ctx.cs)
    parameter_ordering.filterMap (fun k =>
      match k with
      | some (.plain s) => ctx.stmt.table.getCol s
      | _ => none)
    ++ ctx.stmt.table.columns.filter (fun c =>
        !(parameter_ordering.contains (some (.plain c.key))))
  | none => ctx.stmt.table.columns

def _scan_cols (ctx : Ctx) (check_columns : List ParamKey) (st : ScanSt) : ScanSt :=
  let rm := ctx.retmod
  (_scan_cols_collist ctx).foldl (_scan_cols_step ctx rm check_columns) st

/-! ## Errors -/

/-- Fatal outcomes: the unconsumed-column `CompileError` (carrying the
offending keys), the multiparams "explicitly rendered" `CompileError`, and
the uncaught Python exceptions the source can raise on degenerate input. -/
inductive CrudError where
  | unconsumed (keys : List OPK)
  | explicitValueRequired (colKey : String)
  | keyError (k : String)
  | indexError
  | assertionError
  | attributeError
  | typeError
deriving DecidableEq

/-! ## Insert-from-select (`_scan_insert_from_select_cols`) -/

/-- `_append_param_insert_select_hasdefault`: sequence defaults (when
supported and wanted) and clause-element defaults append inline
expressions; any other default — including a procedural one — appends an
unprocessed prefetch bind parameter and records the column for insert
prefetch. -/
def _append_param_insert_select_hasdefault (ctx : Ctx) (c : Column)
    (values : List Triple) (acc : Acc) : List Triple × Acc :=
  match c.default with
  | some (.sequence sname sopt) =>
    if ctx.comp.dialect.supports_sequences
        && (!sopt || !ctx.comp.dialect.sequences_optional) then
      (values ++ [(DMLCol.col c, format_column c, some (SqlVal.seqNext sname))], acc)
    else (values, acc)
  | some (.clauseElement t) =>
    (values ++ [(DMLCol.col c, format_column c, some (SqlVal.sql t))], acc)
  | _ =>
    let (v, acc) := _create_insert_prefetch_bind_param c none acc
    (values ++ [(DMLCol.col c, format_column c, some v)], acc)

/-- `_scan_insert_from_select_cols`.  Returns the updated scan state and
the extra SELECT output expressions appended to the nested select's raw
columns.  `stmt.table.c[name]` raises `KeyError` for an unknown select
name.  (`_get_returning_modifiers` is computed by the source here but its
results are never used in this path.) -/
def _scan_insert_from_select_cols (ctx : Ctx) (check_columns : List ParamKey)
    (st : ScanSt) (names : List String) :
    Except CrudError (ScanSt × List SqlVal) := do
  let cols0 ← names.mapM (fun nm =>
    match ctx.stmt.table.getCol nm with
    | some c => Except.ok c
    | none => Except.error (CrudError.keyError nm))
  let cols :=
    if ctx.stmt.include_insert_from_select_defaults then
      cols0 ++ ctx.stmt.table.columns.filter (fun c =>
        !cols0.contains c && c.default.isSome)
    else cols0
  let (st, add_select_cols) := cols.foldl
    (fun (s : ScanSt × List Triple) c =>
      let (st, asc) := s
      let col_key := _getattr_col_key ctx.cs c
      if pmContains st.parameters (some col_key) && !check_columns.contains col_key then
        ({ st with parameters := pmErase st.parameters (some col_key)
                   values := st.values ++ [(DMLCol.col c, format_column c, none)] }, asc)
      else
        let (asc, acc) := _append_param_insert_select_hasdefault ctx c asc st.acc
        ({ st with acc := acc }, asc))
    (st, [])
  if !add_select_cols.isEmpty then
    return ({ st with values := st.values ++ add_select_cols },
            add_select_cols.filterMap (fun t => t.2.2))
  else
    return (st, [])

/-! ## Multi-table UPDATE (`_get_update_multitable_params`) -/

/-- `normalized_params`: the statement tuples re-keyed as a dict (later
duplicates overwrite). -/
def npDict (tuples : List (DMLCol × RawVal)) : List (DMLCol × RawVal) :=
  tuples.foldl (fun m kv =>
    if m.any (fun p => p.1 == kv.1) then
      m.map (fun p => if p.1 == kv.1 then kv else p)
    else m ++ [kv]) []

def npLookup (np : List (DMLCol × RawVal)) (c : Column) : Option RawVal :=
  (np.find? (fun p => p.1 == DMLCol.col c)).map (fun p => p.2)

/-- First pass of `_get_update_multitable_params`: emit value triples for
declared columns of extra tables, collecting the affected tables and
filling `check_columns`. -/
def _multitable_pass1 (ctx : Ctx) (np : List (DMLCol × RawVal))
    (check_columns : List ParamKey) (values : List Triple) (acc : Acc) :
    List Table × List ParamKey × List Triple × Acc :=
  let include_table := ctx.cs.include_table_with_column_exprs
  ctx.cs.extra_froms.foldl
    (fun (s : List Table × List ParamKey × List Triple × Acc) t =>
      t.columns.foldl
        (fun (s : List Table × List ParamKey × List Triple × Acc) c =>
          match npLookup np c with
          | none => s
          | some value =>
            let (aff, chk, vals, acc) := s
            let aff := if aff.contains t then aff else aff ++ [t]
            let chk := chk ++ [_getattr_col_key ctx.cs c]
            let col_value := format_column_use c include_table
            if value.isLiteral then
              (aff, chk,
               vals ++ [(DMLCol.col c, col_value,
                 some (_create_bind_param c (some value) (value == RawVal.required)
                   (some (_col_bind_name ctx.cs c))))],
               acc)
            else if value.isBindParameter then
              let v :=
                match value with
                | .bindHandle hn ua =>
                  _handle_values_anonymous_param ctx.comp hn ua (_col_bind_name ctx.cs c)
                | _ => SqlVal.sql ""
              (aff, chk, vals ++ [(DMLCol.col c, col_value, some v)], acc)
            else
              (aff, chk, vals ++ [(DMLCol.col c, col_value, some (processRawExpr value))],
               { acc with postfetch := acc.postfetch ++ [c] }))
        s)
    ([], check_columns, values, acc)

/-- Second pass: onupdate / server_onupdate handling for affected tables'
remaining columns.  (Python iterates the affected set in nondeterministic
set order; the model iterates `extra_froms` order.) -/
def _multitable_pass2 (ctx : Ctx) (np : List (DMLCol × RawVal)) (affected : List Table)
    (values : List Triple) (acc : Acc) : List Triple × Acc :=
  let include_table := ctx.cs.include_table_with_column_exprs
  ctx.cs.extra_froms.foldl
    (fun (s : List Triple × Acc) t =>
      if affected.contains t then
        t.columns.foldl
          (fun (s : List Triple × Acc) c =>
            let (vals, acc) := s
            if (npLookup np c).isSome then s
            else
              match c.onupdate with
              | some (.clauseElement tx) =>
                (vals ++ [(DMLCol.col c, format_column_use c include_table,
                   some (processClause tx))],
                 { acc with postfetch := acc.postfetch ++ [c] })
              | some .procedural =>
                let (v, acc) := _create_update_prefetch_bind_param c
                  (some (_col_bind_name ctx.cs c)) acc
                (vals ++ [(DMLCol.col c, format_column_use c include_table, some v)], acc)
              | some (.sequence _ _) =>
                if c.server_onupdate then
                  (vals, { acc with postfetch := acc.postfetch ++ [c] })
                else s
              | none =>
                if c.server_onupdate then
                  (vals, { acc with postfetch := acc.postfetch ++ [c] })
                else s)
          s
      else s)
    (values, acc)

def _get_update_multitable_params (ctx : Ctx) (tuples : List (DMLCol × RawVal))
    (check_columns : List ParamKey) (values : List Triple) (acc : Acc) :
    List ParamKey × List Triple × Acc :=
  let np := npDict tuples
  let (affected, chk, vals, acc) := _multitable_pass1 ctx np check_columns values acc
  let (vals, acc) := _multitable_pass2 ctx np affected vals acc
  (chk, vals, acc)

/-! ## Statement-tuple parameters (`_get_stmt_parameter_tuples_params`) -/

def _get_stmt_parameter_tuples_params (ctx : Ctx) (parameters : PMap)
    (tuples : List (DMLCol × RawVal)) (values : List Triple) : PMap × List Triple :=
  tuples.foldl
    (fun (s : PMap × List Triple) kv =>
      let (parameters, values) := s
      match _column_as_key ctx.cs kv.1 with
      | some colkey => (pmSetdefault parameters (some colkey) kv.2, values)
      | none =>
        -- a non-column expression on the left side: rendered as-is, the
        -- right side coerced to an anonymous bound parameter (not crud)
        let col_expr :=
          match kv.1 with
          | .expr t => t
          | .name s' => s'
          | .col c => c.key
        let v :=
          if kv.2.isLiteral then SqlVal.bind "anon" false false
          else processRawExpr kv.2
        (parameters, values ++ [(kv.1, col_expr, some v)]))
    (parameters, values)

/-! ## Decimal rendering for the `_m<n>` bind-name suffixes -/

def decimalDigitsRevAux : Nat → Nat → List Char
  | _, 0 => []
  | 0, _ + 1 => []
  | f + 1, n + 1 => Nat.digitChar ((n + 1) % 10) :: decimalDigitsRevAux f ((n + 1) / 10)

def decimalDigitsRev (n : Nat) : List Char := decimalDigitsRevAux n n

/-- Decimal rendering of a row index (Python `"%d"`). -/
def decimalRepr (n : Nat) : String :=
  if n = 0 then "0" else String.mk (decimalDigitsRev n).reverse

/-! ## Multiparams extension (`_extend_values_for_multiparams`) -/

/-- The per-row dict `{_column_as_key(key): v for key, v in row.items()}`. -/
def rowDict (cs : CompileState) (row : List (DMLCol × RawVal)) : PMap :=
  row.foldl (fun m kv => pmInsert m (_column_as_key cs kv.1) kv.2) []

/-- `_process_multiparam_default_bind`: replay a column's default for an
additional row.  A missing default is a fatal `CompileError`; a procedural
default creates a row-scoped `_multiparam_column` wrapper (key suffixed
`_m<i+1>`) bound as a prefetch parameter. -/
def _process_multiparam_default_bind (ctx : Ctx) (c : Column) (i : Nat) (acc : Acc) :
    Except CrudError (SqlVal × Acc) :=
  match c.default with
  | none => .error (.explicitValueRequired c.key)
  | some (.clauseElement t) => .ok (processClause t, acc)
  | some (.sequence sname _) => .ok (processSeq sname, acc)
  | some .procedural =>
    let col : Column := { c with key := c.key ++ "_m" ++ decimalRepr (i + 1) }
    if ctx.cs.isinsert then
      .ok (_create_insert_prefetch_bind_param col none acc)
    else
      .ok (_create_update_prefetch_bind_param col none acc)

/-- One column of one additional row: render the row's declared value or
replay the column's default.  A non-column left side raises
`AttributeError` on `col.key` in Python. -/
def _extend_row_step (ctx : Ctx) (i : Nat) (rd : PMap) (s : List Triple × Acc)
    (trip : Triple) : Except CrudError (List Triple × Acc) := do
  let (ext, acc) := s
  match trip.1 with
  | .col c =>
    match pmLookup rd (some (.plain c.key)) with
    | some rv =>
      if rv.isLiteral then
        let v := _create_bind_param c (some rv) false
          (some (c.key ++ "_m" ++ decimalRepr (i + 1)))
        pure (ext ++ [(trip.1, trip.2.1, some v)], acc)
      else
        pure (ext ++ [(trip.1, trip.2.1, some (processRawExpr rv))], acc)
    | none =>
      let (v, acc) ← _process_multiparam_default_bind ctx c i acc
      pure (ext ++ [(trip.1, trip.2.1, some v)], acc)
  | _ => throw CrudError.attributeError

/-- One additional row of a batched statement, replaying row 0's column
order. -/
def _extend_row (ctx : Ctx) (values0 : List Triple) (i : Nat)
    (row : List (DMLCol × RawVal)) (acc : Acc) : Except CrudError (List Triple × Acc) :=
  let rd := rowDict ctx.cs row
  values0.foldlM (_extend_row_step ctx i rd) ([], acc)

def _extend_values_step (ctx : Ctx) (values0 : List Triple)
    (s : List (List Triple) × Acc) (row : List (DMLCol × RawVal)) :
    Except CrudError (List (List Triple) × Acc) := do
  let (vss, acc) := s
  let i := vss.length - 1
  let (ext, acc) ← _extend_row ctx values0 i row acc
  pure (vss ++ [ext], acc)

def _extend_values_for_multiparams (ctx : Ctx) (values0 : List Triple)
    (rows : List (List (DMLCol × RawVal))) (acc : Acc) :
    Except CrudError (List (List Triple) × Acc) :=
  (rows.drop 1).foldlM (_extend_values_step ctx values0) ([values0], acc)

/-! ## The top-level compile (`_get_crud_params`) -/

/-- Lines 167–179: resolve the declared-value shape into
`stmt_parameter_tuples` (`mp[0]` raises `IndexError` on an empty
multiparams list; empty dicts are falsy and yield `None`). -/
def stmtParamTuples (cs : CompileState) : Except CrudError (Option (List (DMLCol × RawVal))) :=
  match cs.paramSource with
  | .multi rows =>
    match rows with
    | [] => .error .indexError
    | r0 :: _ => .ok (some r0)
  | .ordered l => if l.isEmpty then .ok none else .ok (some l)
  | .single d => if d.isEmpty then .ok none else .ok (some d)
  | .noParams => .ok none

/-- Lines 183–195: seed the parameter dict from `compiler.column_keys`
(REQUIRED placeholders), filtered by the declared keys when present. -/
def initialParameters (ctx : Ctx) (tuples? : Option (List (DMLCol × RawVal))) : PMap :=
  match ctx.comp.column_keys with
  | none => []
  | some cks =>
    if (tuples?.getD []).isEmpty then
      cks.foldl (fun m k => pmInsert m (_column_as_key ctx.cs k) RawVal.required) []
    else
      cks.foldl (fun m k =>
        if spdContains (tuples?.getD []) k then m
        else pmInsert m (_column_as_key ctx.cs k) RawVal.required) []

/-- The state of a compile after the full column scan, just before the
unconsumed-parameter check (lines 162–261 of the source). -/
structure ScanPhase where
  parameters : PMap
  tuples : Option (List (DMLCol × RawVal))
  check_columns : List ParamKey
  values : List Triple
  acc : Acc
  ifs_extra : List SqlVal
deriving DecidableEq

def _crud_scan_phase (ctx : Ctx) : Except CrudError ScanPhase := do
  let acc : Acc := {}
  let tuples? ← stmtParamTuples ctx.cs
  let parameters := initialParameters ctx tuples?
  let (parameters, values) :=
    match tuples? with
    | some tuples => _get_stmt_parameter_tuples_params ctx parameters tuples []
    | none => (parameters, ([] : List Triple))
  let (check_columns, values, acc) ←
    if ctx.cs.isupdate && !ctx.cs.extra_froms.isEmpty then
      match tuples? with
      | none => throw CrudError.typeError
      | some tuples => pure (_get_update_multitable_params ctx tuples [] values acc)
    else
      pure (([] : List ParamKey), values, acc)
  if ctx.cs.isinsert && ctx.stmt.select_names.isSome then
    if ctx.cs.paramSource.hasMulti then throw CrudError.assertionError
    else do
      let st : ScanSt := { parameters := parameters, values := values, acc := acc }
      let (st, extra) ← _scan_insert_from_select_cols ctx check_columns st
        (ctx.stmt.select_names.getD [])
      pure { parameters := st.parameters, tuples := tuples?,
             check_columns := check_columns, values := st.values, acc := st.acc,
             ifs_extra := extra }
  else
    let st : ScanSt := { parameters := parameters, values := values, acc := acc }
    let st := _scan_cols ctx check_columns st
    pure { parameters := st.parameters, tuples := tuples?,
           check_columns := check_columns, values := st.values, acc := st.acc,
           ifs_extra := [] }

/-- Lines 263–273: the offending keys of the unconsumed-parameter check:
`set(parameters) ∩ {as_key(k) : (k, v) ∈ stmt_parameter_tuples} \
check_columns`, guarded by both collections being non-empty. -/
def unconsumedCheckKeys (ctx : Ctx) (parameters : PMap)
    (tuples? : Option (List (DMLCol × RawVal))) (check_columns : List ParamKey) :
    List OPK :=
  match tuples? with
  | some tuples =>
    if !parameters.isEmpty && !tuples.isEmpty then
      (pmKeys parameters).filter (fun k =>
        tuples.any (fun kv => _column_as_key ctx.cs kv.1 == k)
          && !(match k with
               | some pk => check_columns.contains pk
               | none => false))
    else []
  | none => []

/-- The output of one compile: row-0 triples, the per-row triple sequences
for a batched statement, the retrieval collections, and the extra SELECT
output expressions of an insert-from-select. -/
structure CrudResult where
  single_params : List Triple
  all_multi_params : List (List Triple)
  acc : Acc
  insert_from_select_extra : List SqlVal
deriving DecidableEq

def _get_crud_params (comp : CompilerIn) (stmt : Stmt) (cs : CompileState)
    (toplevel : Bool) : Except CrudError CrudResult := do
  let ctx : Ctx := { comp := comp, stmt := stmt, cs := cs, toplevel := toplevel }
  -- no parameters in the statement, no compiled column keys: REQUIRED
  -- binds for all table columns, bypassing the scan entirely
  if comp.column_keys.isNone && cs.paramSource.isNoParams then
    return { single_params := stmt.table.columns.map (fun c =>
               (DMLCol.col c, format_column c, some (_create_bind_param c none true none)))
             all_multi_params := []
             acc := {}
             insert_from_select_extra := [] }
  let sp ← _crud_scan_phase ctx
  let bad := unconsumedCheckKeys ctx sp.parameters sp.tuples sp.check_columns
  if !bad.isEmpty then
    throw (CrudError.unconsumed bad)
  if cs.paramSource.hasMulti then
    -- is a multiparams, is not an insert from a select (asserted in the
    -- scan phase)
    let (multi, acc) ← _extend_values_for_multiparams ctx sp.values cs.paramSource.rows sp.acc
    return { single_params := sp.values, all_multi_params := multi, acc := acc,
             insert_from_select_extra := sp.ifs_extra }
  else if sp.values.isEmpty && comp.for_executemany
      && comp.dialect.supports_default_metavalue then
    -- convert an "INSERT DEFAULT VALUES" into INSERT (firstcol) VALUES
    -- (DEFAULT); `stmt.table.columns[0]` raises IndexError on an empty
    -- table
    match stmt.table.columns with
    | [] => throw CrudError.indexError
    | c0 :: _ =>
      return { single_params := [(DMLCol.col c0, format_column c0, some (SqlVal.sql "DEFAULT"))]
               all_multi_params := []
               acc := sp.acc
               insert_from_select_extra := sp.ifs_extra }
  else
    return { single_params := sp.values, all_multi_params := [], acc := sp.acc,
             insert_from_select_extra := sp.ifs_extra }

/-! ## Concrete fixtures used by witnesses and counterexamples -/

/-- All-false dialect. -/
def dialNone : Dialect := ⟨false, false, false, false, false, false, false⟩

/-- Dialect with implicit RETURNING only. -/
def dialIR : Dialect := { dialNone with implicit_returning := true }

def exColId : Column := ⟨"t", "id", true, false, none, none, false, false⟩
def exColName : Column := ⟨"t", "name", false, true, none, none, false, false⟩
def exColCreated : Column := ⟨"t", "created_at", false, true, none, none, true, false⟩
def exTab : Table := ⟨"t", [exColId, exColName, exColCreated], some "id", true⟩

/-- A plain INSERT statement against a table. -/
def mkInsStmt (t : Table) : Stmt := ⟨t, false, false, false, [], none, false⟩

/-- A plain UPDATE statement with a given return-defaults request. -/
def mkUpdStmt (t : Table) (rd : Bool) (rdc : List Column) : Stmt :=
  ⟨t, false, false, rd, rdc, none, false⟩

def mkInsCS (ps : ParamSource) : CompileState := ⟨true, [], ps, none, false⟩
def mkUpdCS (ps : ParamSource) : CompileState := ⟨false, [], ps, none, false⟩

def mkComp (d : Dialect) (ck : Option (List DMLCol)) (fe : Bool) : CompilerIn :=
  ⟨d, fe, ck, false⟩

/-! ## C4: the no-parameters fast path -/

/-! ## Auxiliary definitions: fixtures, shape predicates and bind-name
collections used by the theorems below -/

/-- An autoincrement-free pk column with a SQL-expression default. -/
def exColIdClause : Column := ⟨"t", "id", true, false, some (.clauseElement "f()"), none, false, false⟩

def exTabC3 : Table := ⟨"t", [exColIdClause, exColName], none, true⟩

def exColA : Column := ⟨"t", "a", false, true, none, none, false, false⟩

def exColBProc : Column := ⟨"t", "b", false, true, some .procedural, none, false, false⟩

def exTabC6 : Table := ⟨"t", [exColA, exColBProc], none, true⟩

def exStmtC6 : Stmt := ⟨exTabC6, false, false, false, [], some ["a"], true⟩

/-- A single-column table with a plain nullable column. -/
def exTabC10 : Table := ⟨"t", [exColName], none, true⟩

/-- Shape of one appended-values fact: only triples for the scanned
column are appended. -/
def ValuesShape (c : Column) (st res : ScanSt) : Prop :=
  ∃ new, res.values = st.values ++ new ∧ ∀ t ∈ new, t.1 = DMLCol.col c

/-- Shape of one appended-warnings fact. -/
def WarnShape (st res : ScanSt) : Prop :=
  ∃ w, res.acc.warnings = st.acc.warnings ++ w

/-- A pk-only table for the C7 counterexample. -/
def exColPK : Column := ⟨"t", "id", true, false, none, none, false, false⟩

def exTabC7 : Table := ⟨"t", [exColPK], none, true⟩

/-- A column key that contains no underscore; the amended uniqueness claim
is conditional on this shape restriction. -/
def underscoreFree (s : String) : Prop := ('_' : Char) ∉ s.data

instance (s : String) : Decidable (underscoreFree s) := by
  unfold underscoreFree
  exact inferInstance

/-- The raw key string of a triple's left side (`col.key` in Python;
attribute access on a non-column expression would fail there). -/
def DMLCol.keyStr : DMLCol → String
  | .name s => s
  | .col c => c.key
  | .expr t => t

/-- The names of engine-created (`_is_crud`) bind parameters in a value. -/
def SqlVal.crudNames : SqlVal → List String
  | .bind n _ true => [n]
  | _ => []

def tripleCrudNames (t : Triple) : List String :=
  match t.2.2 with
  | some v => v.crudNames
  | none => []

def rowCrudNames (l : List Triple) : List String := l.bind tripleCrudNames

def lhsKeys (l : List Triple) : List String := l.map (fun t => t.1.keyStr)

/-- All engine-created bind-parameter names of a compiled plan, across
every row sequence. -/
def allCrudNames (r : CrudResult) : List String :=
  if r.all_multi_params.isEmpty then rowCrudNames r.single_params
  else (r.all_multi_params.map rowCrudNames).join

/-- A row-0 triple generates at most one crud bind name, and that name is
its column's key, plainly or with the `_m0` suffix. -/
def TripleNameOk (t : Triple) : Prop :=
  tripleCrudNames t = [] ∨ tripleCrudNames t = [t.1.keyStr]
    ∨ tripleCrudNames t = [t.1.keyStr ++ "_m0"]

/-- Strong per-step shape for the row-0 scan of a batched insert: at most
one triple is appended, for the scanned column, with a `TripleNameOk`
name. -/
def StepNew (c : Column) (st res : ScanSt) : Prop :=
  res.values = st.values
  ∨ ∃ x v, res.values = st.values ++ [(DMLCol.col c, x, v)]
      ∧ TripleNameOk (DMLCol.col c, x, v)

/-- Columns for the C8 counterexample: a plain column `a` next to a column
literally named `a_m1`, whose procedural default is prefetched. -/
def exColA8 : Column := ⟨"t8", "a", false, true, none, none, false, false⟩

def exColAm1 : Column := ⟨"t8", "a_m1", false, true, some DefaultSpec.procedural, none,
  false, false⟩

def exTabC8 : Table := ⟨"t8", [exColA8, exColAm1], none, true⟩

def rowC8 : List (DMLCol × RawVal) := [(DMLCol.col exColA8, RawVal.literal 1)]

/-- Underscore-free fixture for the C8 witness: `a` declared, `b` with a
procedural default. -/
def exColB8 : Column := ⟨"t8", "b", false, true, some DefaultSpec.procedural, none,
  false, false⟩

def exTabW8 : Table := ⟨"t8", [exColA8, exColB8], none, true⟩

def rowW8 : List (DMLCol × RawVal) := [(DMLCol.col exColA8, RawVal.literal 1)]

def compW8 : CompilerIn := mkComp dialNone none false

def stmtW8 : Stmt := mkInsStmt exTabW8

def csW8 : CompileState := mkInsCS (ParamSource.multi [rowW8, rowW8])

/-- The concrete plan of the C8 witness compile. -/
def resW8 : CrudResult :=
  (_get_crud_params compW8 stmtW8 csW8 true).toOption.getD ⟨[], [], {}, []⟩

/-- C4: a compile with no compiled column keys and no declared parameters
returns one triple per table column in declaration order, each value a
REQUIRED crud bind parameter named after the column key, with every
retrieval bucket empty and the lastrowid flag false. -/
theorem C4_fast_path (comp : CompilerIn) (stmt : Stmt) (cs : CompileState)
    (toplevel : Bool) (h1 : comp.column_keys = none)
    (h2 : cs.paramSource = ParamSource.noParams) :
    _get_crud_params comp stmt cs toplevel = Except.ok
      { single_params := stmt.table.columns.map (fun c =>
          (DMLCol.col c, c.key, some (SqlVal.bind c.key true true)))
        all_multi_params := []
        acc := {}
        insert_from_select_extra := [] } := by
  simp [_get_crud_params, h1, h2, ParamSource.isNoParams, _create_bind_param,
    format_column]
  rfl

/-- Witness for C4 at a concrete three-column table. -/
theorem C4_fast_path_witness :
    _get_crud_params (mkComp dialIR none false) (mkInsStmt exTab)
        (mkInsCS ParamSource.noParams) true = Except.ok
      { single_params :=
          [(DMLCol.col exColId, "id", some (SqlVal.bind "id" true true)),
           (DMLCol.col exColName, "name", some (SqlVal.bind "name" true true)),
           (DMLCol.col exColCreated, "created_at", some (SqlVal.bind "created_at" true true))]
        all_multi_params := []
        acc := {}
        insert_from_select_extra := [] } := by
  have h := C4_fast_path (mkComp dialIR none false) (mkInsStmt exTab)
    (mkInsCS ParamSource.noParams) true rfl rfl
  simpa [mkInsStmt, exTab, exColId, exColName, exColCreated] using h

/-! ## C3: primary-key handling when RETURNING is unusable -/

/-- C3 counterexample: the claim says a SqlExpression (clause-element)
primary-key default "renders inline" when RETURNING is unusable.  On this
concrete insert the code instead emits a crud prefetch bind parameter
(named after the column), records the column in `insert_prefetch`, and no
triple carries the inline-rendered default `sql "f()"`. -/
theorem C3_counterexample :
    _get_crud_params (mkComp dialNone (some []) false) (mkInsStmt exTabC3)
        (mkInsCS ParamSource.noParams) true = Except.ok
      { single_params := [(DMLCol.col exColIdClause, "id", some (SqlVal.bind "id" false true))]
        all_multi_params := []
        acc := { insert_prefetch := [exColIdClause] }
        insert_from_select_extra := [] }
    ∧ (_get_crud_params (mkComp dialNone (some []) false) (mkInsStmt exTabC3)
        (mkInsCS ParamSource.noParams) true).toOption.all
        (fun r => r.single_params.all (fun tr => tr.2.2 != some (SqlVal.sql "f()"))) := by
  constructor
  · rfl
  · rfl

/-- C3 amended: when RETURNING is unusable, every usable client default —
Sequence (when sequences are supported and either non-optional or the
dialect does not treat them as optional), SqlExpression, or
ProceduralDefault — becomes a prefetch bind parameter (never an inline
render), as does a default-less autoincrement column when the dialect
lacks last-inserted-id but can pre-execute the autoincrement sequence;
otherwise a default-less, server-default-less, non-nullable,
non-autoincrement column gets only the non-fatal warning and is omitted
(this check precedes the lastrowid check); otherwise, if the dialect
reports last-inserted-id, the postfetch-lastrowid flag is set; otherwise
nothing happens. -/
theorem C3_amended_pk_no_returning (ctx : Ctx) (c : Column) (st : ScanSt) :
    _append_param_insert_pk_no_returning ctx c st =
      (let d := ctx.comp.dialect
       let prefetchCond :=
         (match c.default with
          | some (.sequence _ sopt) =>
            d.supports_sequences && (!sopt || !d.sequences_optional)
          | some (.clauseElement _) => true
          | some .procedural => true
          | none => false)
         || (ctx.stmt.table.is_autoincrement_column c && !d.postfetch_lastrowid
             && ((match c.default with
                  | some (.sequence _ _) => d.supports_sequences
                  | _ => false)
                 || (c.default.isNone && d.preexecute_autoincrement_sequences)))
       let warnCond :=
         c.default.isNone && !c.server_default && !c.nullable
           && !ctx.stmt.table.is_autoincrement_column c
       if prefetchCond then
         { st with
             values := st.values ++ [(DMLCol.col c, c.key, some (SqlVal.bind c.key false true))],
             acc := { st.acc with insert_prefetch := st.acc.insert_prefetch ++ [c] } }
       else if warnCond then
         { st with acc := { st.acc with
             warnings := st.acc.warnings ++ [Warning.pkNoAnticipatedValue c.table_name c.key] } }
       else if d.postfetch_lastrowid then
         { st with acc := { st.acc with postfetch_lastrowid := true } }
       else st) := by
  unfold _append_param_insert_pk_no_returning
  cases hdf : c.default with
  | none =>
    simp [hdf, _create_insert_prefetch_bind_param, _create_bind_param, format_column,
      _warn_pk_with_no_anticipated_value]
  | some df =>
    cases df with
    | sequence sn so =>
      simp [hdf, DefaultSpec.is_sequence, DefaultSpec.seqOpt,
        _create_insert_prefetch_bind_param, _create_bind_param, format_column,
        _warn_pk_with_no_anticipated_value]
    | clauseElement t =>
      simp [hdf, DefaultSpec.is_sequence, DefaultSpec.seqOpt,
        _create_insert_prefetch_bind_param, _create_bind_param, format_column,
        _warn_pk_with_no_anticipated_value]
    | procedural =>
      simp [hdf, DefaultSpec.is_sequence, DefaultSpec.seqOpt,
        _create_insert_prefetch_bind_param, _create_bind_param, format_column,
        _warn_pk_with_no_anticipated_value]

/-! ## C5: UPDATE columns with nothing configured -/

/-- C5 counterexample: an UPDATE against a dialect/table with implicit
RETURNING, `return_defaults` requested with *no* explicit column filter
(so the statement wants all post-write columns back unconditionally: the
resolved implicit-return-defaults set is all table columns).  The claim
says the nothing-configured columns must be added to
`implicit_returning`; the code skips them all — the compile returns an
empty implicit-returning bucket. -/
theorem C5_counterexample :
    (Ctx.mk (mkComp dialIR none false) (mkUpdStmt exTab true [])
        (mkUpdCS (ParamSource.single [])) true).retmod.implicit_return_defaults
      = some exTab.columns
    ∧ _get_crud_params (mkComp dialIR none false) (mkUpdStmt exTab true [])
        (mkUpdCS (ParamSource.single [])) true = Except.ok
      { single_params := [], all_multi_params := [], acc := {},
        insert_from_select_extra := [] } := by
  exact ⟨rfl, rfl⟩

/-- C5 amended: an UPDATE column with no declared value, no update default
and no server-on-update marker is added to `implicit_returning` exactly
when the dialect and table support implicit RETURNING, `return_defaults`
is requested, and an *explicit* return-defaults column filter is present
and contains the column; with no explicit filter (the unconditional
"all post-write columns" request), or without wanting post-write defaults,
the column is skipped entirely. -/
theorem C5_amended_update_no_config (ctx : Ctx) (c : Column) (st : ScanSt)
    (h1 : c.onupdate = none) (h2 : c.server_onupdate = false)
    (hupd : ctx.cs.isinsert = false) :
    _append_param_update ctx ctx.retmod c st =
      (if ctx.comp.dialect.implicit_returning && ctx.stmt.table.implicit_returning
          && ctx.stmt.return_defaults
          && !ctx.stmt.return_defaults_columns.isEmpty
          && ctx.stmt.return_defaults_columns.contains c then
        { st with acc := { st.acc with
            implicit_returning := st.acc.implicit_returning ++ [c] } }
      else st) := by
  unfold _append_param_update _append_param_update_tail Ctx.retmod
    _get_returning_modifiers
  cases hb1 : ctx.comp.dialect.implicit_returning <;>
  cases hb2 : ctx.stmt.table.implicit_returning <;>
  cases hb3 : ctx.stmt.return_defaults <;>
  cases hb4 : ctx.stmt.return_defaults_columns.isEmpty <;>
    simp [h1, h2, hupd, hb1, hb2, hb3, hb4, CompileState.isupdate, irdContains]

/-- Witness for C5 amended: with an explicit filter containing the column,
the nothing-configured column is routed to `implicit_returning`. -/
theorem C5_amended_witness :
    _append_param_update
        (Ctx.mk (mkComp dialIR none false) (mkUpdStmt exTab true [exColName])
          (mkUpdCS (ParamSource.single [])) true)
        (Ctx.mk (mkComp dialIR none false) (mkUpdStmt exTab true [exColName])
          (mkUpdCS (ParamSource.single [])) true).retmod
        exColName { parameters := [], values := [], acc := {} }
      = { parameters := [], values := [],
          acc := { implicit_returning := [exColName] } } := by
  have h := C5_amended_update_no_config
    (Ctx.mk (mkComp dialIR none false) (mkUpdStmt exTab true [exColName])
      (mkUpdCS (ParamSource.single [])) true)
    exColName { parameters := [], values := [], acc := {} } rfl rfl rfl
  simpa using h

/-! ## C6: insert-from-select appended default columns -/

/-- C6 counterexample: an INSERT-from-SELECT that opts into appended
default columns, where appended column `b` has a ProceduralDefault.  The
claim says `b` is simply omitted (no value triple, no extra SELECT output
expression, no prefetch entry); the code instead appends a value triple
holding a crud prefetch bind parameter, records `b` in `insert_prefetch`,
and appends that bind parameter to the nested select's output
expressions. -/
theorem C6_counterexample :
    _get_crud_params (mkComp dialIR none false) exStmtC6
        (mkInsCS (ParamSource.single [(.name "a", .literal 1)])) true = Except.ok
      { single_params :=
          [(DMLCol.col exColA, "a", none),
           (DMLCol.col exColBProc, "b", some (SqlVal.bind "b" false true))]
        all_multi_params := []
        acc := { insert_prefetch := [exColBProc] }
        insert_from_select_extra := [SqlVal.bind "b" false true] } := by
  rfl

/-- C6 amended: in the insert-from-select path, a Sequence default (when
sequences are supported and either non-optional or not dialect-optional)
and a SqlExpression default are appended as inline extra SELECT output
expressions; an unsupported Sequence is omitted; any other default —
including a ProceduralDefault — is appended as a crud prefetch bind
parameter named after the column and recorded in `insert_prefetch`, not
omitted. -/
theorem C6_amended_select_hasdefault (ctx : Ctx) (c : Column)
    (values : List Triple) (acc : Acc) :
    _append_param_insert_select_hasdefault ctx c values acc =
      (match c.default with
       | some (.sequence sname sopt) =>
         if ctx.comp.dialect.supports_sequences
             && (!sopt || !ctx.comp.dialect.sequences_optional) then
           (values ++ [(DMLCol.col c, c.key, some (SqlVal.seqNext sname))], acc)
         else (values, acc)
       | some (.clauseElement t) =>
         (values ++ [(DMLCol.col c, c.key, some (SqlVal.sql t))], acc)
       | _ =>
         (values ++ [(DMLCol.col c, c.key, some (SqlVal.bind c.key false true))],
          { acc with insert_prefetch := acc.insert_prefetch ++ [c] })) := by
  unfold _append_param_insert_select_hasdefault
  cases hdf : c.default with
  | none =>
    simp [hdf, _create_insert_prefetch_bind_param, _create_bind_param, format_column]
  | some df =>
    cases df <;>
      simp [hdf, _create_insert_prefetch_bind_param, _create_bind_param, format_column]

/-! ## C2: the unconsumed-parameter check -/

theorem exceptOkBind {ε α β : Type} (a : α) (f : α → Except ε β) :
    (Except.ok a >>= f) = f a := rfl

theorem exceptErrorBind {ε α β : Type} (e : ε) (f : α → Except ε β) :
    (Except.error e >>= f) = Except.error e := rfl

theorem neIsEmptyFalse {α : Type} {l : List α} (h : l ≠ []) : l.isEmpty = false := by
  cases l with
  | nil => exact absurd rfl h
  | cons a as => rfl

/-- C2: for a compile that reaches the scan (not the no-parameters fast
path), if after the full column scan the offending-key set — declared keys
still unconsumed by a column decision and not absorbed into
`check_columns` by multi-table-update handling, as computed by
`unconsumedCheckKeys` — is non-empty, compilation fails with a single
unconsumed-parameter error listing exactly that set and no plan is
returned; and whenever a plan is returned the offending set was empty. -/
theorem C2_unconsumed_parameters (comp : CompilerIn) (stmt : Stmt) (cs : CompileState)
    (toplevel : Bool) (sp : ScanPhase)
    (hsp : _crud_scan_phase ⟨comp, stmt, cs, toplevel⟩ = Except.ok sp)
    (hfast : (comp.column_keys.isNone && cs.paramSource.isNoParams) = false) :
    (unconsumedCheckKeys ⟨comp, stmt, cs, toplevel⟩ sp.parameters sp.tuples
        sp.check_columns ≠ [] →
      _get_crud_params comp stmt cs toplevel
        = Except.error (CrudError.unconsumed
            (unconsumedCheckKeys ⟨comp, stmt, cs, toplevel⟩ sp.parameters sp.tuples
              sp.check_columns)))
    ∧ ∀ r, _get_crud_params comp stmt cs toplevel = Except.ok r →
        unconsumedCheckKeys ⟨comp, stmt, cs, toplevel⟩ sp.parameters sp.tuples
          sp.check_columns = [] := by
  have hfor : unconsumedCheckKeys ⟨comp, stmt, cs, toplevel⟩ sp.parameters sp.tuples
      sp.check_columns ≠ [] →
      _get_crud_params comp stmt cs toplevel
        = Except.error (CrudError.unconsumed
            (unconsumedCheckKeys ⟨comp, stmt, cs, toplevel⟩ sp.parameters sp.tuples
              sp.check_columns)) := by
    intro hne
    unfold _get_crud_params
    rw [hfast]
    simp only [Bool.false_eq_true, if_false, hsp, exceptOkBind, neIsEmptyFalse hne,
      Bool.not_false, if_true]
    rfl
  refine ⟨hfor, fun r hr => ?_⟩
  by_contra hne
  rw [hfor hne] at hr
  exact Except.noConfusion hr

/-- Witness for C2: an insert declaring the key `zzz`, which matches no
column, fails with the unconsumed error naming exactly `zzz`. -/
theorem C2_witness :
    _get_crud_params (mkComp dialIR none false) (mkInsStmt exTab)
        (mkInsCS (ParamSource.single [(.name "zzz", .literal 5)])) true
      = Except.error (CrudError.unconsumed [some (ParamKey.plain "zzz")]) := by
  have h := (C2_unconsumed_parameters (mkComp dialIR none false) (mkInsStmt exTab)
    (mkInsCS (ParamSource.single [(.name "zzz", .literal 5)])) true _ rfl rfl).1
    (by decide)
  exact h.trans (by rfl)

/-! ## C10: the INSERT DEFAULT VALUES fallback -/

/-- C10 counterexample: a batched-execution compile (`for_executemany`)
with DEFAULT-metavalue support whose scan yields an empty value list, but
which is a multi-row literal VALUES compile: the multiparams branch
returns before the fallback, so the plan keeps an empty value list instead
of the claimed single `(firstColumn, "DEFAULT")` triple. -/
theorem C10_counterexample :
    ((mkComp { dialNone with supports_default_metavalue := true } none true).for_executemany
        = true
      ∧ (mkComp { dialNone with supports_default_metavalue := true } none
          true).dialect.supports_default_metavalue = true
      ∧ (_crud_scan_phase ⟨mkComp { dialNone with supports_default_metavalue := true } none true,
          mkInsStmt exTabC10, mkInsCS (ParamSource.multi [[], []]), true⟩).toOption.all
          (fun sp => sp.values.isEmpty))
    ∧ _get_crud_params (mkComp { dialNone with supports_default_metavalue := true } none true)
        (mkInsStmt exTabC10) (mkInsCS (ParamSource.multi [[], []])) true
      = Except.ok { single_params := [], all_multi_params := [[], []], acc := {},
                    insert_from_select_extra := [] } := by
  exact ⟨⟨rfl, rfl, rfl⟩, rfl⟩

/-- After a successful scan phase with the unconsumed check passing, the
compile reduces to the multiparams extension, the DEFAULT-metavalue
fallback, or the plain return. -/
theorem getCrudParamsCore (comp : CompilerIn) (stmt : Stmt) (cs : CompileState)
    (toplevel : Bool) (sp : ScanPhase)
    (hsp : _crud_scan_phase ⟨comp, stmt, cs, toplevel⟩ = Except.ok sp)
    (hfast : (comp.column_keys.isNone && cs.paramSource.isNoParams) = false)
    (hbad : unconsumedCheckKeys ⟨comp, stmt, cs, toplevel⟩ sp.parameters sp.tuples
      sp.check_columns = []) :
    _get_crud_params comp stmt cs toplevel =
      (if cs.paramSource.hasMulti then
        (_extend_values_for_multiparams ⟨comp, stmt, cs, toplevel⟩ sp.values
            cs.paramSource.rows sp.acc).map
          (fun p => { single_params := sp.values, all_multi_params := p.1, acc := p.2,
                      insert_from_select_extra := sp.ifs_extra })
      else if sp.values.isEmpty && comp.for_executemany
          && comp.dialect.supports_default_metavalue then
        match stmt.table.columns with
        | [] => Except.error CrudError.indexError
        | c0 :: _ =>
          Except.ok { single_params := [(DMLCol.col c0, format_column c0,
                        some (SqlVal.sql "DEFAULT"))]
                      all_multi_params := []
                      acc := sp.acc
                      insert_from_select_extra := sp.ifs_extra }
      else
        Except.ok { single_params := sp.values, all_multi_params := [], acc := sp.acc,
                    insert_from_select_extra := sp.ifs_extra }) := by
  unfold _get_crud_params
  rw [hfast]
  simp only [Bool.false_eq_true, if_false, hsp, exceptOkBind, hbad, List.isEmpty_nil,
    Bool.not_true]
  cases hm : cs.paramSource.hasMulti with
  | false =>
    simp only [hm, Bool.false_eq_true, if_false, format_column]
    rfl
  | true =>
    simp only [hm, if_true]
    cases hx : _extend_values_for_multiparams ⟨comp, stmt, cs, toplevel⟩ sp.values
        cs.paramSource.rows sp.acc with
    | error e => simp only [hx, Except.map]; rfl
    | ok p => simp only [hx, Except.map]; rfl

/-- C10 amended: when the scan leaves the value list empty and the compile
is *not* a multi-row literal VALUES compile, then under batched execution
with DEFAULT-metavalue support the plan is exactly one triple pairing the
table's first column (the table being non-empty) with the literal SQL text
DEFAULT; without batched execution or without metavalue support the value
list stays empty; and in the multi-row case the row-0 value list likewise
stays empty on success. -/
theorem C10_default_metavalue (comp : CompilerIn) (stmt : Stmt) (cs : CompileState)
    (toplevel : Bool) (sp : ScanPhase)
    (hsp : _crud_scan_phase ⟨comp, stmt, cs, toplevel⟩ = Except.ok sp)
    (hfast : (comp.column_keys.isNone && cs.paramSource.isNoParams) = false)
    (hbad : unconsumedCheckKeys ⟨comp, stmt, cs, toplevel⟩ sp.parameters sp.tuples
      sp.check_columns = [])
    (hv : sp.values = []) :
    (∀ c0 rest, cs.paramSource.hasMulti = false → comp.for_executemany = true →
      comp.dialect.supports_default_metavalue = true →
      stmt.table.columns = c0 :: rest →
      _get_crud_params comp stmt cs toplevel = Except.ok
        { single_params := [(DMLCol.col c0, c0.key, some (SqlVal.sql "DEFAULT"))]
          all_multi_params := []
          acc := sp.acc
          insert_from_select_extra := sp.ifs_extra })
    ∧ (cs.paramSource.hasMulti = false →
      (comp.for_executemany && comp.dialect.supports_default_metavalue) = false →
      _get_crud_params comp stmt cs toplevel = Except.ok
        { single_params := []
          all_multi_params := []
          acc := sp.acc
          insert_from_select_extra := sp.ifs_extra })
    ∧ (cs.paramSource.hasMulti = true →
      ∀ r, _get_crud_params comp stmt cs toplevel = Except.ok r →
        r.single_params = []) := by
  have hcore := getCrudParamsCore comp stmt cs toplevel sp hsp hfast hbad
  refine ⟨?_, ?_, ?_⟩
  · intro c0 rest hm hfe hmv hcols
    rw [hcore, hm, hv, hcols]
    simp [hfe, hmv, format_column]
  · intro hm hfemv
    rw [hcore, hm, hv]
    simp [hfemv]
  · intro hm r hr
    rw [hcore, hm] at hr
    simp only [if_true] at hr
    cases hx : _extend_values_for_multiparams ⟨comp, stmt, cs, toplevel⟩ sp.values
        cs.paramSource.rows sp.acc with
    | error e => rw [hx] at hr; exact Except.noConfusion hr
    | ok p =>
      rw [hx] at hr
      have : r = { single_params := sp.values, all_multi_params := p.1, acc := p.2,
                   insert_from_select_extra := sp.ifs_extra } := by
        exact (Except.ok.inj hr).symm
      rw [this, hv]

/-- Witness for C10 amended: a non-multiparams empty-scan compile under
batched execution with metavalue support yields the single DEFAULT
triple. -/
theorem C10_witness :
    _get_crud_params (mkComp { dialNone with supports_default_metavalue := true } (some []) true)
        (mkInsStmt exTabC10) (mkInsCS (ParamSource.single [])) true
      = Except.ok { single_params := [(DMLCol.col exColName, "name", some (SqlVal.sql "DEFAULT"))]
                    all_multi_params := []
                    acc := {}
                    insert_from_select_extra := [] } := by
  have h := (C10_default_metavalue
      (mkComp { dialNone with supports_default_metavalue := true } (some []) true)
      (mkInsStmt exTabC10) (mkInsCS (ParamSource.single [])) true _ rfl rfl (by rfl)
      (by rfl)).1 exColName [] rfl rfl rfl rfl
  exact h.trans (by rfl)

/-! ## C9: unknown keys in rows after row 0 are silently dropped -/

theorem find?_replace_ne {m : PMap} {p q : OPK} {v : RawVal} (h : (p == q) = false) :
    (m.map (fun e => if e.1 == p then (p, v) else e)).find? (fun e => e.1 == q)
      = m.find? (fun e => e.1 == q) := by
  induction m with
  | nil => rfl
  | cons e es ih =>
    rw [List.map_cons, List.find?_cons, List.find?_cons]
    cases hpp : (e.1 == p) with
    | true =>
      have he1 : e.1 = p := eq_of_beq hpp
      simp [hpp, he1, h, -List.find?_map]
      simpa [-List.find?_map] using ih
    | false =>
      cases hpq : (e.1 == q) with
      | true => simp [hpp, hpq, -List.find?_map]
      | false =>
        simp [hpp, hpq, -List.find?_map]
        simpa [-List.find?_map] using ih

theorem find?_append_single_ne {m : PMap} {p q : OPK} {v : RawVal} (h : (p == q) = false) :
    (m ++ [(p, v)]).find? (fun e => e.1 == q) = m.find? (fun e => e.1 == q) := by
  induction m with
  | nil =>
    rw [List.nil_append, List.find?_cons]
    simp [h]
  | cons e es ih =>
    rw [List.cons_append, List.find?_cons, List.find?_cons]
    cases hpq : (e.1 == q) with
    | true => simp [hpq]
    | false => simp [hpq, ih, -List.find?_append]

/-- Inserting a parameter under key `p` leaves lookups of another key
unchanged. -/
theorem pmLookup_insert_ne (m : PMap) (p q : OPK) (v : RawVal) (h : (p == q) = false) :
    pmLookup (pmInsert m p v) q = pmLookup m q := by
  unfold pmInsert pmLookup
  split
  · rw [find?_replace_ne h]
  · rw [find?_append_single_ne h]

theorem foldlM_congr_mem {α β ε : Type} (f g : β → α → Except ε β) :
    ∀ (l : List α), (∀ s a, a ∈ l → f s a = g s a) →
      ∀ init, l.foldlM f init = l.foldlM g init := by
  intro l
  induction l with
  | nil => intro _ _; rfl
  | cons x xs ih =>
    intro h init
    rw [List.foldlM_cons, List.foldlM_cons, h init x (by simp)]
    cases hx : g init x with
    | error e => rfl
    | ok s =>
      simp only [exceptOkBind]
      exact ih (fun s a ha => h s a (by simp [ha])) s

theorem foldlM_modified_elem {α β ε : Type} (f : β → α → Except ε β) (a b : α)
    (hab : ∀ s, f s a = f s b) :
    ∀ (l1 l2 : List α) (init : β),
      (l1 ++ a :: l2).foldlM f init = (l1 ++ b :: l2).foldlM f init := by
  intro l1
  induction l1 with
  | nil =>
    intro l2 init
    simp only [List.nil_append, List.foldlM_cons, hab init]
  | cons x xs ih =>
    intro l2 init
    simp only [List.cons_append, List.foldlM_cons]
    cases hx : f init x with
    | error e => rfl
    | ok s =>
      simp only [exceptOkBind]
      exact ih l2 s

/-- Dropping a key that matches no row-0 column from an additional row
leaves that row's extension unchanged. -/
theorem extend_row_drop_unknown (ctx : Ctx) (values0 : List Triple) (i : Nat)
    (row : List (DMLCol × RawVal)) (k : DMLCol) (v : RawVal) (acc : Acc)
    (hp : ∀ trip ∈ values0, ∀ c : Column, trip.1 = DMLCol.col c →
      (_column_as_key ctx.cs k == some (ParamKey.plain c.key)) = false) :
    _extend_row ctx values0 i (row ++ [(k, v)]) acc = _extend_row ctx values0 i row acc := by
  unfold _extend_row
  have hrd : rowDict ctx.cs (row ++ [(k, v)]) =
      pmInsert (rowDict ctx.cs row) (_column_as_key ctx.cs k) v := by
    unfold rowDict
    rw [List.foldl_append]
    rfl
  rw [hrd]
  apply foldlM_congr_mem
  intro s trip htrip
  obtain ⟨ext, acc2⟩ := s
  unfold _extend_row_step
  cases htc : trip.1 with
  | col c =>
    simp only [htc]
    rw [pmLookup_insert_ne _ _ _ _ (hp trip htrip c htc)]
  | name s' => simp only [htc]
  | expr t => simp only [htc]

/-- C9: a key declared in a row after row 0 that corresponds to no column
of row 0's triple sequence is silently dropped: removing it changes
nothing — neither any row's triples, nor the retrieval collections or
warnings, nor success/failure of the compile's extension step, because
each additional row is built only by iterating row 0's columns. -/
theorem C9_unknown_key_silently_dropped (ctx : Ctx) (values0 : List Triple) (acc : Acc)
    (r0 row : List (DMLCol × RawVal)) (pre post : List (List (DMLCol × RawVal)))
    (k : DMLCol) (v : RawVal)
    (hp : ∀ trip ∈ values0, ∀ c : Column, trip.1 = DMLCol.col c →
      (_column_as_key ctx.cs k == some (ParamKey.plain c.key)) = false) :
    _extend_values_for_multiparams ctx values0 (r0 :: pre ++ (row ++ [(k, v)]) :: post) acc
      = _extend_values_for_multiparams ctx values0 (r0 :: pre ++ row :: post) acc := by
  unfold _extend_values_for_multiparams
  apply foldlM_modified_elem
  intro s
  obtain ⟨vss, acc'⟩ := s
  unfold _extend_values_step
  simp only
  rw [extend_row_drop_unknown ctx values0 (vss.length - 1) row k v acc' hp]

/-- Witness for C9: dropping the unknown key `zzz` from row 1 leaves the
batched extension unchanged (and its value is the literal `9`, which
appears in no triple of either result). -/
theorem C9_witness :
    _extend_values_for_multiparams
        (Ctx.mk (mkComp dialNone none false) (mkInsStmt exTabC10)
          (mkInsCS (ParamSource.multi [[(.name "name", .literal 1)],
            [(.name "name", .literal 2), (.name "zzz", .literal 9)]])) true)
        [(DMLCol.col exColName, "name", some (SqlVal.bind "name_m0" false true))]
        [[(.name "name", .literal 1)],
         [(.name "name", .literal 2), (.name "zzz", .literal 9)]] {}
      = _extend_values_for_multiparams
        (Ctx.mk (mkComp dialNone none false) (mkInsStmt exTabC10)
          (mkInsCS (ParamSource.multi [[(.name "name", .literal 1)],
            [(.name "name", .literal 2), (.name "zzz", .literal 9)]])) true)
        [(DMLCol.col exColName, "name", some (SqlVal.bind "name_m0" false true))]
        [[(.name "name", .literal 1)], [(.name "name", .literal 2)]] {} := by
  exact C9_unknown_key_silently_dropped _
    [(DMLCol.col exColName, "name", some (SqlVal.bind "name_m0" false true))] {}
    [(.name "name", .literal 1)] [(.name "name", .literal 2)] [] []
    (.name "zzz") (.literal 9)
    (fun trip htrip c htc => by
      have h1 : trip = (DMLCol.col exColName, "name", some (SqlVal.bind "name_m0" false true)) := by
        simpa using htrip
      rw [h1] at htc
      have h2 : exColName = c := DMLCol.col.inj htc
      subst h2
      rfl)

/-! ## C7: the non-fatal primary-key warning -/

/-- For an INSERT, when `need_pks` is false the implicit-return-defaults
set is `False` (no column qualifies). -/
theorem retmod_ird_none_of_not_need_pks (ctx : Ctx) (hins : ctx.cs.isinsert = true)
    (h : ctx.retmod.need_pks = false) :
    ctx.retmod.implicit_return_defaults = none := by
  unfold Ctx.retmod _get_returning_modifiers at *
  simp only [hins, if_true] at *
  rw [h]
  simp

theorem app_parameter_values (ctx : Ctx) (rm : RetMod) (c : Column) (k : OPK)
    (st : ScanSt) : ValuesShape c st (_append_param_parameter ctx rm c k st) := by
  unfold ValuesShape _append_param_parameter
  dsimp only
  repeat' split
  all_goals first
    | exact ⟨[], (List.append_nil _).symm, by simp⟩
    | exact ⟨[_], rfl, by simp⟩

theorem app_pk_ret_values (ctx : Ctx) (c : Column) (st : ScanSt) :
    ValuesShape c st (_append_param_insert_pk_returning ctx c st) := by
  unfold ValuesShape _append_param_insert_pk_returning _create_insert_prefetch_bind_param
  dsimp only
  repeat' split
  all_goals first
    | exact ⟨[], (List.append_nil _).symm, by simp⟩
    | exact ⟨[_], rfl, by simp⟩

theorem app_pk_noret_values (ctx : Ctx) (c : Column) (st : ScanSt) :
    ValuesShape c st (_append_param_insert_pk_no_returning ctx c st) := by
  unfold ValuesShape _append_param_insert_pk_no_returning _create_insert_prefetch_bind_param
  dsimp only
  repeat' split
  all_goals first
    | exact ⟨[], (List.append_nil _).symm, by simp⟩
    | exact ⟨[_], rfl, by simp⟩

theorem app_hasdefault_values (ctx : Ctx) (rm : RetMod) (c : Column) (st : ScanSt) :
    ValuesShape c st (_append_param_insert_hasdefault ctx rm c st) := by
  unfold ValuesShape _append_param_insert_hasdefault _create_insert_prefetch_bind_param
  dsimp only
  repeat' split
  all_goals first
    | exact ⟨[], (List.append_nil _).symm, by simp⟩
    | exact ⟨[_], rfl, by simp⟩

theorem app_update_values (ctx : Ctx) (rm : RetMod) (c : Column) (st : ScanSt) :
    ValuesShape c st (_append_param_update ctx rm c st) := by
  unfold ValuesShape _append_param_update _append_param_update_tail
    _create_update_prefetch_bind_param
  dsimp only
  repeat' split
  all_goals first
    | exact ⟨[], (List.append_nil _).symm, by simp⟩
    | exact ⟨[_], rfl, by simp⟩

/-- Each scan step appends only triples whose left side is the scanned
column. -/
theorem scan_step_values (ctx : Ctx) (rm : RetMod) (chk : List ParamKey) (st : ScanSt)
    (c : Column) :
    ∃ new, (_scan_cols_step ctx rm chk st c).values = st.values ++ new
      ∧ ∀ t ∈ new, t.1 = DMLCol.col c := by
  have h1 := app_parameter_values ctx rm c (some (_getattr_col_key ctx.cs c)) st
  have h2 := app_pk_ret_values ctx c st
  have h3 := app_pk_noret_values ctx c st
  have h4 := app_hasdefault_values ctx rm c st
  have h5 := app_update_values ctx rm c st
  unfold ValuesShape at h1 h2 h3 h4 h5
  unfold _scan_cols_step
  dsimp only
  repeat' split
  all_goals first
    | exact h1
    | exact h2
    | exact h3
    | exact h4
    | exact h5
    | exact ⟨[], (List.append_nil _).symm, by simp⟩

theorem app_parameter_warnings (ctx : Ctx) (rm : RetMod) (c : Column) (k : OPK)
    (st : ScanSt) : WarnShape st (_append_param_parameter ctx rm c k st) := by
  unfold WarnShape _append_param_parameter
  dsimp only
  repeat' split
  all_goals first
    | exact ⟨[], (List.append_nil _).symm⟩
    | exact ⟨[_], rfl⟩

theorem app_pk_ret_warnings (ctx : Ctx) (c : Column) (st : ScanSt) :
    WarnShape st (_append_param_insert_pk_returning ctx c st) := by
  unfold WarnShape _append_param_insert_pk_returning _create_insert_prefetch_bind_param
    _warn_pk_with_no_anticipated_value
  dsimp only
  repeat' split
  all_goals first
    | exact ⟨[], (List.append_nil _).symm⟩
    | exact ⟨[_], rfl⟩

theorem app_pk_noret_warnings (ctx : Ctx) (c : Column) (st : ScanSt) :
    WarnShape st (_append_param_insert_pk_no_returning ctx c st) := by
  unfold WarnShape _append_param_insert_pk_no_returning _create_insert_prefetch_bind_param
    _warn_pk_with_no_anticipated_value
  dsimp only
  repeat' split
  all_goals first
    | exact ⟨[], (List.append_nil _).symm⟩
    | exact ⟨[_], rfl⟩

theorem app_hasdefault_warnings (ctx : Ctx) (rm : RetMod) (c : Column) (st : ScanSt) :
    WarnShape st (_append_param_insert_hasdefault ctx rm c st) := by
  unfold WarnShape _append_param_insert_hasdefault _create_insert_prefetch_bind_param
  dsimp only
  repeat' split
  all_goals first
    | exact ⟨[], (List.append_nil _).symm⟩
    | exact ⟨[_], rfl⟩

theorem app_update_warnings (ctx : Ctx) (rm : RetMod) (c : Column) (st : ScanSt) :
    WarnShape st (_append_param_update ctx rm c st) := by
  unfold WarnShape _append_param_update _append_param_update_tail
    _create_update_prefetch_bind_param
  dsimp only
  repeat' split
  all_goals first
    | exact ⟨[], (List.append_nil _).symm⟩
    | exact ⟨[_], rfl⟩

/-- Each scan step only appends warnings. -/
theorem scan_step_warnings (ctx : Ctx) (rm : RetMod) (chk : List ParamKey)
    (st : ScanSt) (c : Column) :
    ∃ w, (_scan_cols_step ctx rm chk st c).acc.warnings = st.acc.warnings ++ w := by
  have h1 := app_parameter_warnings ctx rm c (some (_getattr_col_key ctx.cs c)) st
  have h2 := app_pk_ret_warnings ctx c st
  have h3 := app_pk_noret_warnings ctx c st
  have h4 := app_hasdefault_warnings ctx rm c st
  have h5 := app_update_warnings ctx rm c st
  unfold WarnShape at h1 h2 h3 h4 h5
  unfold _scan_cols_step
  dsimp only
  repeat' split
  all_goals first
    | exact h1
    | exact h2
    | exact h3
    | exact h4
    | exact h5
    | exact ⟨[], (List.append_nil _).symm⟩
    | exact ⟨[_], rfl⟩

theorem app_pk_ret_params (ctx : Ctx) (c : Column) (st : ScanSt) :
    (_append_param_insert_pk_returning ctx c st).parameters = st.parameters := by
  unfold _append_param_insert_pk_returning _create_insert_prefetch_bind_param
    _warn_pk_with_no_anticipated_value
  dsimp only
  repeat' split
  all_goals rfl

theorem app_pk_noret_params (ctx : Ctx) (c : Column) (st : ScanSt) :
    (_append_param_insert_pk_no_returning ctx c st).parameters = st.parameters := by
  unfold _append_param_insert_pk_no_returning _create_insert_prefetch_bind_param
    _warn_pk_with_no_anticipated_value
  dsimp only
  repeat' split
  all_goals rfl

theorem app_hasdefault_params (ctx : Ctx) (rm : RetMod) (c : Column) (st : ScanSt) :
    (_append_param_insert_hasdefault ctx rm c st).parameters = st.parameters := by
  unfold _append_param_insert_hasdefault _create_insert_prefetch_bind_param
  dsimp only
  repeat' split
  all_goals rfl

theorem app_update_params (ctx : Ctx) (rm : RetMod) (c : Column) (st : ScanSt) :
    (_append_param_update ctx rm c st).parameters = st.parameters := by
  unfold _append_param_update _append_param_update_tail _create_update_prefetch_bind_param
  dsimp only
  repeat' split
  all_goals rfl

theorem app_parameter_params_empty (ctx : Ctx) (rm : RetMod) (c : Column) (k : OPK)
    (st : ScanSt) (h : st.parameters = []) :
    (_append_param_parameter ctx rm c k st).parameters = [] := by
  unfold _append_param_parameter
  rw [h]
  exact h

/-- A scan step never adds parameter-dict entries; with an empty dict the
dict stays empty. -/
theorem scan_step_params_empty (ctx : Ctx) (rm : RetMod) (chk : List ParamKey)
    (st : ScanSt) (c : Column) (h : st.parameters = []) :
    (_scan_cols_step ctx rm chk st c).parameters = [] := by
  have h1 := app_parameter_params_empty ctx rm c (some (_getattr_col_key ctx.cs c)) st h
  have h2 := app_pk_ret_params ctx c st
  have h3 := app_pk_noret_params ctx c st
  have h4 := app_hasdefault_params ctx rm c st
  have h5 := app_update_params ctx rm c st
  unfold _scan_cols_step
  dsimp only
  repeat' split
  all_goals first
    | exact h1
    | exact h2.trans h
    | exact h3.trans h
    | exact h4.trans h
    | exact h5.trans h
    | exact h

/-- The decisive step for C7: an undeclared non-nullable, non-autoincrement
primary-key column with no client and no server default only appends the
warning, leaving parameters, values and all retrieval buckets unchanged —
in each of the three reachable insert paths. -/
theorem scan_step_pk_warn (ctx : Ctx) (chk : List ParamKey) (st : ScanSt) (c : Column)
    (hins : ctx.cs.isinsert = true) (hparams : st.parameters = [])
    (hpk : c.primary_key = true) (hnul : c.nullable = false)
    (hdef : c.default = none) (hsd : c.server_default = false)
    (hai : ctx.stmt.table.is_autoincrement_column c = false) :
    _scan_cols_step ctx ctx.retmod chk st c
      = { st with acc := { st.acc with warnings := st.acc.warnings
            ++ [Warning.pkNoAnticipatedValue c.table_name c.key] } } := by
  unfold _scan_cols_step
  rw [hparams]
  simp only [pmContains, List.any_nil, Bool.false_and, Bool.false_eq_true, if_false,
    hins, if_true]
  by_cases hnp : ctx.retmod.need_pks = true
  · simp only [hpk, hnp, Bool.and_self, if_true]
    by_cases hir : ctx.retmod.implicit_returning = true
    · simp only [hir, if_true]
      unfold _append_param_insert_pk_returning
      rw [hdef]
      simp [hai, hsd, hnul, _warn_pk_with_no_anticipated_value]
      exact hparams
    · have hirf : ctx.retmod.implicit_returning = false := by
        simpa using hir
      simp only [hirf, Bool.false_eq_true, if_false]
      unfold _append_param_insert_pk_no_returning
      rw [hdef]
      simp [hai, hsd, hnul, _warn_pk_with_no_anticipated_value]
      exact hparams
  · have hnpf : ctx.retmod.need_pks = false := by simpa using hnp
    have hird := retmod_ird_none_of_not_need_pks ctx hins hnpf
    simp [hpk, hnpf, hdef, hsd, hird, irdContains, hai, hnul,
      _warn_pk_with_no_anticipated_value]

theorem scan_fold_params_empty (ctx : Ctx) (rm : RetMod) (chk : List ParamKey) :
    ∀ (cols : List Column) (st : ScanSt), st.parameters = [] →
      (cols.foldl (_scan_cols_step ctx rm chk) st).parameters = [] := by
  intro cols
  induction cols with
  | nil => intro st h; exact h
  | cons x xs ih =>
    intro st h
    rw [List.foldl_cons]
    exact ih _ (scan_step_params_empty ctx rm chk st x h)

theorem scan_fold_warnings (ctx : Ctx) (rm : RetMod) (chk : List ParamKey) :
    ∀ (cols : List Column) (st : ScanSt),
      ∃ w, (cols.foldl (_scan_cols_step ctx rm chk) st).acc.warnings
        = st.acc.warnings ++ w := by
  intro cols
  induction cols with
  | nil => intro st; exact ⟨[], (List.append_nil _).symm⟩
  | cons x xs ih =>
    intro st
    rw [List.foldl_cons]
    obtain ⟨w1, hw1⟩ := scan_step_warnings ctx rm chk st x
    obtain ⟨w2, hw2⟩ := ih (_scan_cols_step ctx rm chk st x)
    exact ⟨w1 ++ w2, by rw [hw2, hw1, List.append_assoc]⟩

theorem scan_fold_warn_mem (ctx : Ctx) (rm : RetMod) (chk : List ParamKey)
    (c0 : Column) (w0 : Warning)
    (hself : ∀ st : ScanSt, st.parameters = [] →
      (_scan_cols_step ctx rm chk st c0).acc.warnings = st.acc.warnings ++ [w0]) :
    ∀ (cols : List Column) (st : ScanSt), st.parameters = [] → c0 ∈ cols →
      w0 ∈ (cols.foldl (_scan_cols_step ctx rm chk) st).acc.warnings := by
  intro cols
  induction cols with
  | nil => intro st _ h; cases h
  | cons x xs ih =>
    intro st hp hmem
    rw [List.foldl_cons]
    rcases List.mem_cons.mp hmem with h1 | h2
    · subst h1
      obtain ⟨w, hw⟩ := scan_fold_warnings ctx rm chk xs (_scan_cols_step ctx rm chk st c0)
      rw [hw, hself st hp]
      simp
    · exact ih _ (scan_step_params_empty ctx rm chk st x hp) h2

theorem scan_fold_no_trip (ctx : Ctx) (rm : RetMod) (chk : List ParamKey) (c0 : Column)
    (hself : ∀ st : ScanSt, st.parameters = [] →
      (_scan_cols_step ctx rm chk st c0).values = st.values) :
    ∀ (cols : List Column) (st : ScanSt), st.parameters = [] →
      (∀ t ∈ st.values, t.1 ≠ DMLCol.col c0) →
      ∀ t ∈ (cols.foldl (_scan_cols_step ctx rm chk) st).values, t.1 ≠ DMLCol.col c0 := by
  intro cols
  induction cols with
  | nil => intro st _ hbase t ht; exact hbase t ht
  | cons x xs ih =>
    intro st hp hbase t ht
    rw [List.foldl_cons] at ht
    refine ih (_scan_cols_step ctx rm chk st x)
      (scan_step_params_empty ctx rm chk st x hp) ?_ t ht
    intro t' ht'
    by_cases hx : x = c0
    · subst hx
      rw [hself st hp] at ht'
      exact hbase t' ht'
    · obtain ⟨new, hnew, hlhs⟩ := scan_step_values ctx rm chk st x
      rw [hnew] at ht'
      rcases List.mem_append.mp ht' with hh1 | hh2
      · exact hbase t' hh1
      · rw [hlhs t' hh2]
        intro hcc
        exact hx (DMLCol.col.inj hcc)

/-- The scan phase of an insert with an empty declared dict, no compiled
column keys and no select names reduces to a plain `_scan_cols` run from
the empty state. -/
theorem scan_phase_single_empty (comp : CompilerIn) (stmt : Stmt) (cs : CompileState)
    (toplevel : Bool)
    (hins : cs.isinsert = true) (hps : cs.paramSource = ParamSource.single [])
    (hck : comp.column_keys = none) (hsel : stmt.select_names = none) :
    _crud_scan_phase ⟨comp, stmt, cs, toplevel⟩ = Except.ok
      { parameters := (_scan_cols ⟨comp, stmt, cs, toplevel⟩ []
          { parameters := [], values := [], acc := {} }).parameters
        tuples := none
        check_columns := []
        values := (_scan_cols ⟨comp, stmt, cs, toplevel⟩ []
          { parameters := [], values := [], acc := {} }).values
        acc := (_scan_cols ⟨comp, stmt, cs, toplevel⟩ []
          { parameters := [], values := [], acc := {} }).acc
        ifs_extra := [] } := by
  unfold _crud_scan_phase
  simp only [hps, stmtParamTuples, List.isEmpty_nil, if_true, exceptOkBind,
    initialParameters, hck, CompileState.isupdate, hins, Bool.not_true, Bool.false_and,
    Bool.false_eq_true, if_false, hsel, Option.isSome_none, Bool.and_false]
  rfl

/-- C7 counterexample: a non-nullable, non-autoincrement primary key with
no defaults and no declared value, on a dialect with DEFAULT-metavalue
support compiled for executemany.  The claim says the column is absent
from the value list; the warning is emitted and compilation completes, but
the empty-scan fallback pairs this very column with the DEFAULT keyword,
so it *is* in the value list. -/
theorem C7_counterexample :
    _get_crud_params (mkComp { dialNone with supports_default_metavalue := true } none true)
        (mkInsStmt exTabC7) (mkInsCS (ParamSource.single [])) true
      = Except.ok
        { single_params := [(DMLCol.col exColPK, "id", some (SqlVal.sql "DEFAULT"))]
          all_multi_params := []
          acc := { warnings := [Warning.pkNoAnticipatedValue "t" "id"] }
          insert_from_select_extra := [] } := by
  rfl

/-- C7 amended: for an insert with no declared parameters and no compiled
column keys, a non-nullable primary-key column that is not the
autoincrement column and has no client or server default triggers the
non-fatal warning, contributes no triple of its own, and compilation still
completes with a plan; the only way the column can appear in the value
list is as the DEFAULT-metavalue fallback triple (value text DEFAULT) when
the whole scan produced no values. -/
theorem C7_pk_warning (comp : CompilerIn) (stmt : Stmt) (cs : CompileState)
    (toplevel : Bool) (c : Column)
    (hins : cs.isinsert = true) (hps : cs.paramSource = ParamSource.single [])
    (hck : comp.column_keys = none) (hsel : stmt.select_names = none)
    (hpo : cs.parameter_ordering = none)
    (hmem : c ∈ stmt.table.columns)
    (hpk : c.primary_key = true) (hnul : c.nullable = false)
    (hdef : c.default = none) (hsd : c.server_default = false)
    (hai : stmt.table.is_autoincrement_column c = false) :
    ∃ r, _get_crud_params comp stmt cs toplevel = Except.ok r
      ∧ Warning.pkNoAnticipatedValue c.table_name c.key ∈ r.acc.warnings
      ∧ ∀ t ∈ r.single_params, t.1 = DMLCol.col c →
          t.2.2 = some (SqlVal.sql "DEFAULT") := by
  have hfast : (comp.column_keys.isNone && cs.paramSource.isNoParams) = false := by
    rw [hck, hps]
    rfl
  have hsp := scan_phase_single_empty comp stmt cs toplevel hins hps hck hsel
  have hcore := getCrudParamsCore comp stmt cs toplevel _ hsp hfast (by rfl)
  have hmulti : cs.paramSource.hasMulti = false := by rw [hps]; rfl
  rw [hmulti] at hcore
  simp only [Bool.false_eq_true, if_false] at hcore
  have hstep : ∀ st : ScanSt, st.parameters = [] →
      _scan_cols_step ⟨comp, stmt, cs, toplevel⟩ (Ctx.retmod ⟨comp, stmt, cs, toplevel⟩)
        [] st c
        = { st with acc := { st.acc with warnings := st.acc.warnings
              ++ [Warning.pkNoAnticipatedValue c.table_name c.key] } } :=
    fun st hs => scan_step_pk_warn ⟨comp, stmt, cs, toplevel⟩ [] st c hins hs hpk hnul
      hdef hsd hai
  have hcols : _scan_cols_collist ⟨comp, stmt, cs, toplevel⟩ = stmt.table.columns := by
    unfold _scan_cols_collist
    rw [hpo]
  have hwmem : Warning.pkNoAnticipatedValue c.table_name c.key ∈
      (_scan_cols ⟨comp, stmt, cs, toplevel⟩ []
        { parameters := [], values := [], acc := {} }).acc.warnings := by
    unfold _scan_cols
    rw [hcols]
    exact scan_fold_warn_mem ⟨comp, stmt, cs, toplevel⟩ _ [] c _
      (fun st hs => by rw [hstep st hs]) stmt.table.columns
      { parameters := [], values := [], acc := {} } rfl hmem
  have hnotrip : ∀ t ∈ (_scan_cols ⟨comp, stmt, cs, toplevel⟩ []
      { parameters := [], values := [], acc := {} }).values, t.1 ≠ DMLCol.col c := by
    unfold _scan_cols
    rw [hcols]
    exact scan_fold_no_trip ⟨comp, stmt, cs, toplevel⟩ _ [] c
      (fun st hs => by rw [hstep st hs]) stmt.table.columns
      { parameters := [], values := [], acc := {} } rfl (by intro t ht; cases ht)
  by_cases hfb : ((_scan_cols ⟨comp, stmt, cs, toplevel⟩ []
      { parameters := [], values := [], acc := {} }).values.isEmpty
        && comp.for_executemany && comp.dialect.supports_default_metavalue) = true
  · rw [hfb] at hcore
    simp only [if_true] at hcore
    cases hc : stmt.table.columns with
    | nil => rw [hc] at hmem; cases hmem
    | cons c0 rest =>
      rw [hc] at hcore
      refine ⟨_, hcore, hwmem, ?_⟩
      intro t ht _
      have : t = (DMLCol.col c0, format_column c0, some (SqlVal.sql "DEFAULT")) := by
        simpa using ht
      rw [this]
  · have hfbf : ((_scan_cols ⟨comp, stmt, cs, toplevel⟩ []
        { parameters := [], values := [], acc := {} }).values.isEmpty
          && comp.for_executemany && comp.dialect.supports_default_metavalue) = false := by
      simpa using hfb
    rw [hfbf] at hcore
    simp only [Bool.false_eq_true, if_false] at hcore
    refine ⟨_, hcore, hwmem, ?_⟩
    intro t ht htc
    exact absurd htc (hnotrip t ht)

/-! ## C8: batched INSERT shape and bind-name uniqueness

String machinery for the `_m<row>` bind-name suffixes. -/

theorem underscore_split {l₁ l₂ r₁ r₂ : List Char}
    (h1 : ('_' : Char) ∉ l₁) (h2 : ('_' : Char) ∉ l₂)
    (h : l₁ ++ ('_' : Char) :: r₁ = l₂ ++ ('_' : Char) :: r₂) : l₁ = l₂ ∧ r₁ = r₂ := by
  induction l₁ generalizing l₂ with
  | nil =>
    cases l₂ with
    | nil => simpa using h
    | cons b bs =>
      simp only [List.nil_append, List.cons_append, List.cons.injEq] at h
      refine absurd ?_ h2
      rw [h.1]
      exact List.mem_cons_self b bs
  | cons a as ih =>
    cases l₂ with
    | nil =>
      simp only [List.cons_append, List.nil_append, List.cons.injEq] at h
      refine absurd ?_ h1
      rw [← h.1]
      exact List.mem_cons_self a as
    | cons b bs =>
      simp only [List.cons_append, List.cons.injEq] at h
      obtain ⟨hab, hres⟩ := h
      have h1' : ('_' : Char) ∉ as := fun hh => h1 (List.mem_cons_of_mem _ hh)
      have h2' : ('_' : Char) ∉ bs := fun hh => h2 (List.mem_cons_of_mem _ hh)
      obtain ⟨he, hr⟩ := ih h1' h2' hres
      exact ⟨by rw [hab, he], hr⟩

theorem digitChar_inj_lt10 :
    ∀ a, a < 10 → ∀ b, b < 10 → Nat.digitChar a = Nat.digitChar b → a = b := by
  decide

theorem decimalDigitsRevAux_fuel : ∀ (n f f2 : Nat), n ≤ f → n ≤ f2 →
    decimalDigitsRevAux f n = decimalDigitsRevAux f2 n := by
  intro n
  induction n using Nat.strong_induction_on with
  | _ n ih =>
    intro f f2 hf hf2
    match n, f, f2 with
    | 0, f, f2 =>
      cases f <;> cases f2 <;> rfl
    | n + 1, 0, f2 => exact absurd hf (by omega)
    | n + 1, f + 1, 0 => exact absurd hf2 (by omega)
    | n + 1, f + 1, f2 + 1 =>
      simp only [decimalDigitsRevAux]
      have hdiv : (n + 1) / 10 < n + 1 := Nat.div_lt_self (Nat.succ_pos n) (by omega)
      exact congrArg _ (ih ((n + 1) / 10) hdiv f f2 (by omega) (by omega))

theorem decimalDigitsRev_eq (p : Nat) :
    decimalDigitsRev p
      = if p = 0 then [] else Nat.digitChar (p % 10) :: decimalDigitsRev (p / 10) := by
  cases p with
  | zero => rfl
  | succ n =>
    rw [if_neg (Nat.succ_ne_zero n)]
    show decimalDigitsRevAux (n + 1) (n + 1)
      = Nat.digitChar ((n + 1) % 10) :: decimalDigitsRev ((n + 1) / 10)
    simp only [decimalDigitsRevAux]
    have hdiv : (n + 1) / 10 < n + 1 := Nat.div_lt_self (Nat.succ_pos n) (by omega)
    exact congrArg _ (decimalDigitsRevAux_fuel ((n + 1) / 10) n ((n + 1) / 10)
      (by omega) (le_refl _))

theorem decimalDigitsRev_inj : ∀ m n : Nat, decimalDigitsRev m = decimalDigitsRev n → m = n := by
  intro m
  induction m using Nat.strong_induction_on with
  | _ m ih =>
    intro n h
    rw [decimalDigitsRev_eq m, decimalDigitsRev_eq n] at h
    by_cases hm : m = 0 <;> by_cases hn : n = 0
    · rw [hm, hn]
    · rw [if_pos hm, if_neg hn] at h
      exact absurd h (by simp)
    · rw [if_neg hm, if_pos hn] at h
      exact absurd h (by simp)
    · rw [if_neg hm, if_neg hn] at h
      obtain ⟨h1, h2⟩ := List.cons.inj h
      have e1 : m % 10 = n % 10 :=
        digitChar_inj_lt10 _ (Nat.mod_lt _ (by omega)) _ (Nat.mod_lt _ (by omega)) h1
      have e2 : m / 10 = n / 10 :=
        ih (m / 10) (Nat.div_lt_self (Nat.pos_of_ne_zero hm) (by omega)) _ h2
      omega

theorem decimalDigitsRev_single_zero {p : Nat} (hp : p ≠ 0)
    (h : decimalDigitsRev p = [('0' : Char)]) : False := by
  rw [decimalDigitsRev_eq, if_neg hp] at h
  obtain ⟨hh1, hh2⟩ := List.cons.inj h
  have e1 : p % 10 = 0 :=
    digitChar_inj_lt10 _ (Nat.mod_lt _ (by omega)) 0 (by omega) hh1
  have e2 : p / 10 = 0 := by
    by_contra hne
    rw [decimalDigitsRev_eq, if_neg hne] at hh2
    exact List.cons_ne_nil _ _ hh2
  omega

theorem decimalRepr_inj : ∀ m n : Nat, decimalRepr m = decimalRepr n → m = n := by
  intro m n h
  unfold decimalRepr at h
  by_cases hm : m = 0 <;> by_cases hn : n = 0
  · rw [hm, hn]
  · rw [if_pos hm, if_neg hn] at h
    have hdata : [('0' : Char)] = (decimalDigitsRev n).reverse := congrArg String.data h
    have hn0 : decimalDigitsRev n = [('0' : Char)] := by
      have := congrArg List.reverse hdata
      simpa using this.symm
    exact absurd hn0 (fun hh => decimalDigitsRev_single_zero hn hh)
  · rw [if_neg hm, if_pos hn] at h
    have hdata : (decimalDigitsRev m).reverse = [('0' : Char)] := congrArg String.data h
    have hm0 : decimalDigitsRev m = [('0' : Char)] := by
      have := congrArg List.reverse hdata
      simpa using this
    exact absurd hm0 (fun hh => decimalDigitsRev_single_zero hm hh)
  · rw [if_neg hm, if_neg hn] at h
    have hdata : (decimalDigitsRev m).reverse = (decimalDigitsRev n).reverse :=
      congrArg String.data h
    have : decimalDigitsRev m = decimalDigitsRev n := by
      have := congrArg List.reverse hdata
      simpa using this
    exact decimalDigitsRev_inj m n this

theorem string_append_data (a b : String) : (a ++ b).data = a.data ++ b.data := rfl

theorem string_eq_of_data {a b : String} (h : a.data = b.data) : a = b := by
  cases a
  cases b
  simp only at h
  rw [h]

/-- The central collision lemma: two `key ++ "_m" ++ digits` names built
from underscore-free keys coincide only when both parts coincide. -/
theorem genCollision {k k' a b : String}
    (hk : underscoreFree k) (hk' : underscoreFree k')
    (h : k ++ "_m" ++ a = k' ++ "_m" ++ b) : k = k' ∧ a = b := by
  have hd := congrArg String.data h
  rw [string_append_data, string_append_data, string_append_data, string_append_data] at hd
  have hm : ("_m" : String).data = ('_' : Char) :: [('m' : Char)] := rfl
  rw [hm] at hd
  simp only [List.append_assoc, List.cons_append, List.nil_append] at hd
  obtain ⟨h1, h2⟩ := underscore_split hk hk' hd
  refine ⟨string_eq_of_data h1, ?_⟩
  have := List.cons.inj h2
  exact string_eq_of_data this.2

/-- An underscore-free key never equals another key with an `_m` suffix. -/
theorem uf_ne_suffixed {k k' a : String} (hk : underscoreFree k) :
    k ≠ k' ++ "_m" ++ a := by
  intro h
  apply hk
  have hd := congrArg String.data h
  rw [string_append_data, string_append_data] at hd
  rw [hd]
  have hm : ('_' : Char) ∈ ("_m" : String).data := by decide
  exact List.mem_append.mpr (Or.inl (List.mem_append.mpr (Or.inr hm)))

theorem crudNames_processRawExpr (v : RawVal) : (processRawExpr v).crudNames = [] := by
  cases v <;> rfl

theorem app_parameter_strong (ctx : Ctx) (rm : RetMod) (c : Column) (k : OPK)
    (st : ScanSt) (hins : ctx.cs.isinsert = true)
    (hm : ctx.cs.paramSource.hasMulti = true) :
    StepNew c st (_append_param_parameter ctx rm c k st) := by
  unfold StepNew _append_param_parameter _handle_values_anonymous_param _col_bind_name
    _use_qualified _create_bind_param
  rw [hm]
  simp only [hins, CompileState.isupdate, Bool.not_true, Bool.false_and,
    Bool.false_eq_true, if_false, if_true]
  repeat' split
  all_goals first
    | exact Or.inl rfl
    | exact Or.inr ⟨_, _, rfl, Or.inl (by
        simp only [TripleNameOk, tripleCrudNames]
        exact crudNames_processRawExpr _)⟩
    | exact Or.inr ⟨_, _, rfl, by
        simp [TripleNameOk, tripleCrudNames, SqlVal.crudNames, DMLCol.keyStr]⟩

theorem app_pk_ret_strong (ctx : Ctx) (c : Column) (st : ScanSt) :
    StepNew c st (_append_param_insert_pk_returning ctx c st) := by
  unfold StepNew _append_param_insert_pk_returning _create_insert_prefetch_bind_param
    _create_bind_param
  dsimp only
  repeat' split
  all_goals first
    | exact Or.inl rfl
    | exact Or.inr ⟨_, _, rfl, by
        simp [TripleNameOk, tripleCrudNames, SqlVal.crudNames, DMLCol.keyStr,
          processSeq, processClause]⟩

theorem app_pk_noret_strong (ctx : Ctx) (c : Column) (st : ScanSt) :
    StepNew c st (_append_param_insert_pk_no_returning ctx c st) := by
  unfold StepNew _append_param_insert_pk_no_returning _create_insert_prefetch_bind_param
    _create_bind_param
  dsimp only
  repeat' split
  all_goals first
    | exact Or.inl rfl
    | exact Or.inr ⟨_, _, rfl, by
        simp [TripleNameOk, tripleCrudNames, SqlVal.crudNames, DMLCol.keyStr]⟩

theorem app_hasdefault_strong (ctx : Ctx) (rm : RetMod) (c : Column) (st : ScanSt) :
    StepNew c st (_append_param_insert_hasdefault ctx rm c st) := by
  unfold StepNew _append_param_insert_hasdefault _create_insert_prefetch_bind_param
    _create_bind_param
  dsimp only
  repeat' split
  all_goals first
    | exact Or.inl rfl
    | exact Or.inr ⟨_, _, rfl, by
        simp [TripleNameOk, tripleCrudNames, SqlVal.crudNames, DMLCol.keyStr,
          processSeq, processClause]⟩

theorem scan_step_strong (ctx : Ctx) (rm : RetMod) (chk : List ParamKey) (st : ScanSt)
    (c : Column) (hins : ctx.cs.isinsert = true)
    (hm : ctx.cs.paramSource.hasMulti = true) :
    StepNew c st (_scan_cols_step ctx rm chk st c) := by
  have h1 := app_parameter_strong ctx rm c (some (_getattr_col_key ctx.cs c)) st hins hm
  have h2 := app_pk_ret_strong ctx c st
  have h3 := app_pk_noret_strong ctx c st
  have h4 := app_hasdefault_strong ctx rm c st
  unfold _scan_cols_step
  dsimp only
  repeat' split
  all_goals first
    | exact h1
    | exact h2
    | exact h3
    | exact h4
    | exact Or.inl rfl
    | simp_all [StepNew]

/-- Row-0 scan of a batched insert: the appended triples carry keys
forming a sublist of the scanned columns' keys, and every appended
triple's crud name is `TripleNameOk`. -/
theorem scan_fold_tags (ctx : Ctx) (rm : RetMod) (chk : List ParamKey)
    (hins : ctx.cs.isinsert = true) (hm : ctx.cs.paramSource.hasMulti = true) :
    ∀ (cols : List Column) (st : ScanSt),
      ∃ new, (cols.foldl (_scan_cols_step ctx rm chk) st).values = st.values ++ new
        ∧ List.Sublist (lhsKeys new) (cols.map Column.key)
        ∧ ∀ t ∈ new, TripleNameOk t := by
  intro cols
  induction cols with
  | nil => intro st; exact ⟨[], by simp, by simp [lhsKeys], by simp⟩
  | cons x xs ih =>
    intro st
    rw [List.foldl_cons]
    obtain ⟨new2, hv2, hs2, hok2⟩ := ih (_scan_cols_step ctx rm chk st x)
    rcases scan_step_strong ctx rm chk st x hins hm with h | ⟨a, v, hv1, hok1⟩
    · refine ⟨new2, by rw [hv2, h], ?_, hok2⟩
      exact hs2.trans (List.sublist_cons_self _ _)
    · refine ⟨(DMLCol.col x, a, v) :: new2, ?_, ?_, ?_⟩
      · rw [hv2, hv1]
        simp
      · simp only [lhsKeys, List.map_cons, DMLCol.keyStr]
        exact List.Sublist.cons₂ _ (by simpa [lhsKeys] using hs2)
      · intro t ht
        rcases List.mem_cons.mp ht with h1 | h2
        · rw [h1]; exact hok1
        · exact hok2 t h2

/-- One step of an additional row appends exactly one triple, for the same
left side, whose crud name is empty or the key with this row's suffix. -/
theorem extend_row_step_shape (ctx : Ctx) (i : Nat) (rd : PMap)
    (s : List Triple × Acc) (trip : Triple) (res : List Triple × Acc)
    (h : _extend_row_step ctx i rd s trip = Except.ok res) :
    ∃ v acc2, res = (s.1 ++ [(trip.1, trip.2.1, some v)], acc2)
      ∧ (SqlVal.crudNames v = []
        ∨ SqlVal.crudNames v = [trip.1.keyStr ++ "_m" ++ decimalRepr (i + 1)]) := by
  obtain ⟨ext, acc0⟩ := s
  unfold _extend_row_step at h
  cases htc : trip.1 with
  | col c =>
    rw [htc] at h
    simp only at h
    cases hlk : pmLookup rd (some (ParamKey.plain c.key)) with
    | some rv =>
      rw [hlk] at h
      simp only at h
      by_cases hlit : rv.isLiteral = true
      · rw [if_pos hlit] at h
        refine ⟨_, _, (Except.ok.inj h).symm, Or.inr ?_⟩
        simp [SqlVal.crudNames, _create_bind_param, htc, DMLCol.keyStr]
      · rw [if_neg hlit] at h
        refine ⟨_, _, (Except.ok.inj h).symm, Or.inl (crudNames_processRawExpr rv)⟩
    | none =>
      rw [hlk] at h
      simp only at h
      cases hdf : c.default with
      | none =>
        rw [_process_multiparam_default_bind, hdf] at h
        exact absurd h (by simp [exceptErrorBind])
      | some df =>
        cases df with
        | clauseElement t =>
          rw [_process_multiparam_default_bind, hdf] at h
          simp only [exceptOkBind] at h
          exact ⟨_, _, (Except.ok.inj h).symm, Or.inl rfl⟩
        | sequence sn so =>
          rw [_process_multiparam_default_bind, hdf] at h
          simp only [exceptOkBind] at h
          exact ⟨_, _, (Except.ok.inj h).symm, Or.inl rfl⟩
        | procedural =>
          rw [_process_multiparam_default_bind, hdf] at h
          by_cases hi : ctx.cs.isinsert = true
          · rw [if_pos hi] at h
            simp only [exceptOkBind] at h
            refine ⟨_, _, (Except.ok.inj h).symm, Or.inr ?_⟩
            simp [SqlVal.crudNames, _create_insert_prefetch_bind_param,
              _create_bind_param, htc, DMLCol.keyStr]
          · rw [if_neg hi] at h
            simp only [exceptOkBind] at h
            refine ⟨_, _, (Except.ok.inj h).symm, Or.inr ?_⟩
            simp [SqlVal.crudNames, _create_update_prefetch_bind_param,
              _create_bind_param, htc, DMLCol.keyStr]
  | name s' =>
    rw [htc] at h
    exact absurd h (by simp [exceptErrorBind])
  | expr t =>
    rw [htc] at h
    exact absurd h (by simp [exceptErrorBind])

/-- An additional row's extension: one triple per row-0 triple, same left
sides in order, and its crud names are row-suffixed keys drawn (in order,
without repetition) from the row-0 left-side keys. -/
theorem extend_row_fold_tags (ctx : Ctx) (i : Nat) (rd : PMap) :
    ∀ (trips : List Triple) (ext0 : List Triple) (acc : Acc) (res : List Triple × Acc),
      trips.foldlM (_extend_row_step ctx i rd) (ext0, acc) = Except.ok res →
      ∃ new, res.1 = ext0 ++ new
        ∧ new.map (fun t => t.1) = trips.map (fun t => t.1)
        ∧ ∃ tags, rowCrudNames new = tags.map (fun k => k ++ "_m" ++ decimalRepr (i + 1))
            ∧ List.Sublist tags (lhsKeys trips) := by
  intro trips
  induction trips with
  | nil =>
    intro ext0 acc res hres
    simp only [List.foldlM_nil] at hres
    have : (ext0, acc) = res := Except.ok.inj hres
    exact ⟨[], by rw [← this]; simp, by simp, ⟨[], by simp [rowCrudNames], by simp [lhsKeys]⟩⟩
  | cons t ts ih =>
    intro ext0 acc res hres
    rw [List.foldlM_cons] at hres
    cases hstep : _extend_row_step ctx i rd (ext0, acc) t with
    | error e =>
      rw [hstep] at hres
      exact absurd hres (by simp [exceptErrorBind])
    | ok s1 =>
      rw [hstep, exceptOkBind] at hres
      obtain ⟨v, acc2, hs1, hname⟩ := extend_row_step_shape ctx i rd (ext0, acc) t s1 hstep
      obtain ⟨new2, h1, h2, tags2, h3, h4⟩ := ih s1.1 s1.2 res hres
      rw [hs1] at h1
      simp only at h1
      refine ⟨(t.1, t.2.1, some v) :: new2, ?_, ?_, ?_⟩
      · rw [h1]
        simp
      · simp only [List.map_cons, h2]
      · have hcons : rowCrudNames ((t.1, t.2.1, some v) :: new2)
            = SqlVal.crudNames v ++ rowCrudNames new2 := by
          simp [rowCrudNames, tripleCrudNames]
        rcases hname with hn | hn
        · refine ⟨tags2, ?_, ?_⟩
          · rw [hcons, hn, h3]
            simp
          · exact h4.trans (by simpa [lhsKeys] using
              List.sublist_cons_self t.1.keyStr (lhsKeys ts))
        · refine ⟨t.1.keyStr :: tags2, ?_, ?_⟩
          · rw [hcons, hn, h3]
            simp
          · simpa [lhsKeys] using List.Sublist.cons₂ t.1.keyStr h4

/-- `_extend_row` in terms of the tags facts. -/
theorem extend_row_tags (ctx : Ctx) (values0 : List Triple) (i : Nat)
    (row : List (DMLCol × RawVal)) (acc : Acc) (res : List Triple × Acc)
    (h : _extend_row ctx values0 i row acc = Except.ok res) :
    res.1.map (fun t => t.1) = values0.map (fun t => t.1)
    ∧ ∃ tags, rowCrudNames res.1 = tags.map (fun k => k ++ "_m" ++ decimalRepr (i + 1))
        ∧ List.Sublist tags (lhsKeys values0) := by
  unfold _extend_row at h
  obtain ⟨new, h1, h2, tags, h3, h4⟩ :=
    extend_row_fold_tags ctx i (rowDict ctx.cs row) values0 [] acc res h
  rw [List.nil_append] at h1
  rw [h1]
  exact ⟨h2, tags, h3, h4⟩

/-- The outer multiparams fold: one extension per additional row, each
replaying row 0's left sides, with crud names suffixed by the row
position. -/
theorem extend_fold_tags (ctx : Ctx) (values0 : List Triple) :
    ∀ (rs : List (List (DMLCol × RawVal))) (vss0 : List (List Triple)) (acc : Acc)
      (res : List (List Triple) × Acc),
      vss0 ≠ [] →
      rs.foldlM (_extend_values_step ctx values0) (vss0, acc) = Except.ok res →
      ∃ exts, res.1 = vss0 ++ exts ∧ exts.length = rs.length
        ∧ (∀ e ∈ exts, e.map (fun t => t.1) = values0.map (fun t => t.1))
        ∧ ∀ j (hj : j < exts.length), ∃ tags,
            rowCrudNames (exts.get ⟨j, hj⟩)
              = tags.map (fun k => k ++ "_m" ++ decimalRepr (vss0.length + j))
            ∧ List.Sublist tags (lhsKeys values0) := by
  intro rs
  induction rs with
  | nil =>
    intro vss0 acc res hne hres
    simp only [List.foldlM_nil] at hres
    have : (vss0, acc) = res := Except.ok.inj hres
    refine ⟨[], by rw [← this]; simp, by simp, by simp, ?_⟩
    intro j hj
    exact absurd hj (by simp)
  | cons r rest ih =>
    intro vss0 acc res hne hres
    rw [List.foldlM_cons] at hres
    cases hstep : _extend_values_step ctx values0 (vss0, acc) r with
    | error e =>
      rw [hstep] at hres
      exact absurd hres (by simp [exceptErrorBind])
    | ok s1 =>
      rw [hstep, exceptOkBind] at hres
      unfold _extend_values_step at hstep
      simp only at hstep
      cases hrow : _extend_row ctx values0 (vss0.length - 1) r acc with
      | error e =>
        rw [hrow] at hstep
        exact absurd hstep (by simp [exceptErrorBind])
      | ok p =>
        rw [hrow, exceptOkBind] at hstep
        have hs1 : s1 = (vss0 ++ [p.1], p.2) := (Except.ok.inj hstep).symm
        obtain ⟨hlhs, tags1, hnm1, hsub1⟩ :=
          extend_row_tags ctx values0 (vss0.length - 1) r acc p hrow
        have hlen1 : vss0.length - 1 + 1 = vss0.length := by
          cases vss0 with
          | nil => exact absurd rfl hne
          | cons a as => simp
        obtain ⟨exts2, h1, h2, h3, h4⟩ := ih (vss0 ++ [p.1]) p.2 res (by simp)
          (by rw [← hs1]; exact hres)
        refine ⟨p.1 :: exts2, ?_, by simp [h2], ?_, ?_⟩
        · rw [h1]
          simp
        · intro e he
          rcases List.mem_cons.mp he with hh | hh
          · rw [hh]; exact hlhs
          · exact h3 e hh
        · intro j hj
          cases j with
          | zero =>
            refine ⟨tags1, ?_, hsub1⟩
            simp only [List.get]
            rw [hnm1, hlen1]
            simp
          | succ j' =>
            have hj' : j' < exts2.length := by simpa using hj
            obtain ⟨tags, ht1, ht2⟩ := h4 j' hj'
            refine ⟨tags, ?_, ht2⟩
            have harith : (vss0 ++ [p.1]).length + j' = vss0.length + (j' + 1) := by
              simp
              omega
            rw [← harith]
            simpa using ht1

/-- The tags facts for the whole `_extend_values_for_multiparams` run. -/
theorem extend_values_tags (ctx : Ctx) (values0 : List Triple)
    (rows : List (List (DMLCol × RawVal))) (acc : Acc)
    (res : List (List Triple) × Acc)
    (h : _extend_values_for_multiparams ctx values0 rows acc = Except.ok res) :
    ∃ exts, res.1 = values0 :: exts ∧ exts.length = (rows.drop 1).length
      ∧ (∀ e ∈ exts, e.map (fun t => t.1) = values0.map (fun t => t.1))
      ∧ ∀ j (hj : j < exts.length), ∃ tags,
          rowCrudNames (exts.get ⟨j, hj⟩)
            = tags.map (fun k => k ++ "_m" ++ decimalRepr (1 + j))
          ∧ List.Sublist tags (lhsKeys values0) := by
  unfold _extend_values_for_multiparams at h
  obtain ⟨exts, h1, h2, h3, h4⟩ :=
    extend_fold_tags ctx values0 (rows.drop 1) [values0] acc res (by simp) h
  exact ⟨exts, by simpa using h1, h2, h3, by simpa using h4⟩

/-- Witness for C7 amended at the P8 scenario: warning emitted, `id`
absent, compilation succeeds. -/
theorem C7_witness :
    (∃ r, _get_crud_params (mkComp dialNone none false)
        (mkInsStmt ⟨"t", [exColPK, exColName], none, true⟩)
        (mkInsCS (ParamSource.single [])) true = Except.ok r
      ∧ Warning.pkNoAnticipatedValue "t" "id" ∈ r.acc.warnings
      ∧ ∀ t ∈ r.single_params, t.1 = DMLCol.col exColPK →
          t.2.2 = some (SqlVal.sql "DEFAULT")) :=
  C7_pk_warning (mkComp dialNone none false)
    (mkInsStmt ⟨"t", [exColPK, exColName], none, true⟩)
    (mkInsCS (ParamSource.single [])) true exColPK rfl rfl rfl rfl rfl
    (by simp [mkInsStmt]) rfl rfl rfl rfl rfl

/-! ## C8: batch shape and global bind-name uniqueness -/

/-- When every key of the tuple list resolves to a column, the tuple pass
only setdefaults into the parameter dict and appends no value triple. -/
theorem tuple_params_values_unchanged (ctx : Ctx) (tuples : List (DMLCol × RawVal))
    (h : ∀ kv ∈ tuples, _column_as_key ctx.cs kv.1 ≠ none) :
    ∀ (parameters : PMap) (values : List Triple),
      (_get_stmt_parameter_tuples_params ctx parameters tuples values).2 = values := by
  induction tuples with
  | nil => intro p v; rfl
  | cons kv rest ih =>
    intro p v
    have hk : _column_as_key ctx.cs kv.1 ≠ none := h kv (List.mem_cons_self _ _)
    cases hsome : _column_as_key ctx.cs kv.1 with
    | none => exact absurd hsome hk
    | some ck =>
      have hcons : _get_stmt_parameter_tuples_params ctx p (kv :: rest) v
          = _get_stmt_parameter_tuples_params ctx (pmSetdefault p (some ck) kv.2) rest v := by
        unfold _get_stmt_parameter_tuples_params
        rw [List.foldl_cons]
        simp only [hsome]
      rw [hcons]
      exact ih (fun x hx => h x (List.mem_cons_of_mem _ hx)) _ v

/-- Shared helper: a non-empty offending-key set after the scan makes the
compile fail with the unconsumed-parameter error. -/
theorem getCrudParamsUnconsumed (comp : CompilerIn) (stmt : Stmt) (cs : CompileState)
    (toplevel : Bool) (sp : ScanPhase)
    (hsp : _crud_scan_phase ⟨comp, stmt, cs, toplevel⟩ = Except.ok sp)
    (hfast : (comp.column_keys.isNone && cs.paramSource.isNoParams) = false)
    (hne : unconsumedCheckKeys ⟨comp, stmt, cs, toplevel⟩ sp.parameters sp.tuples
      sp.check_columns ≠ []) :
    _get_crud_params comp stmt cs toplevel
      = Except.error (CrudError.unconsumed (unconsumedCheckKeys ⟨comp, stmt, cs, toplevel⟩
          sp.parameters sp.tuples sp.check_columns)) := by
  unfold _get_crud_params
  rw [hfast]
  simp only [Bool.false_eq_true, if_false, hsp, exceptOkBind, neIsEmptyFalse hne,
    Bool.not_false, if_true]
  rfl

/-- The scan phase of a batched insert whose row-0 keys all resolve to
columns: nothing is seeded into the value list before the scan, and the
result is the plain column scan over the setdefault-seeded parameter
dict. -/
theorem scan_phase_multi (comp : CompilerIn) (stmt : Stmt) (cs : CompileState)
    (toplevel : Bool) (r0 : List (DMLCol × RawVal)) (rest : List (List (DMLCol × RawVal)))
    (hins : cs.isinsert = true) (hps : cs.paramSource = ParamSource.multi (r0 :: rest))
    (hck : comp.column_keys = none) (hsel : stmt.select_names = none)
    (hkeys : ∀ kv ∈ r0, _column_as_key cs kv.1 ≠ none) :
    _crud_scan_phase ⟨comp, stmt, cs, toplevel⟩ = Except.ok
      { parameters := (_scan_cols ⟨comp, stmt, cs, toplevel⟩ []
          { parameters := (_get_stmt_parameter_tuples_params ⟨comp, stmt, cs, toplevel⟩
              [] r0 []).1, values := [], acc := {} }).parameters
        tuples := some r0
        check_columns := []
        values := (_scan_cols ⟨comp, stmt, cs, toplevel⟩ []
          { parameters := (_get_stmt_parameter_tuples_params ⟨comp, stmt, cs, toplevel⟩
              [] r0 []).1, values := [], acc := {} }).values
        acc := (_scan_cols ⟨comp, stmt, cs, toplevel⟩ []
          { parameters := (_get_stmt_parameter_tuples_params ⟨comp, stmt, cs, toplevel⟩
              [] r0 []).1, values := [], acc := {} }).acc
        ifs_extra := [] } := by
  have hval := tuple_params_values_unchanged ⟨comp, stmt, cs, toplevel⟩ r0 hkeys [] []
  have hpair : _get_stmt_parameter_tuples_params ⟨comp, stmt, cs, toplevel⟩ [] r0 []
      = ((_get_stmt_parameter_tuples_params ⟨comp, stmt, cs, toplevel⟩ [] r0 []).1,
         ([] : List Triple)) :=
    Prod.ext_iff.mpr ⟨rfl, hval⟩
  unfold _crud_scan_phase
  simp only [hps, stmtParamTuples, exceptOkBind, initialParameters, hck]
  rw [hpair]
  simp only [CompileState.isupdate, hins, Bool.not_true, Bool.false_and,
    Bool.false_eq_true, if_false, hsel, Option.isSome_none, Bool.and_false, exceptOkBind]
  rfl

/-- A literal `_m0` suffix is the `_m` separator followed by the digit 0. -/
theorem m0_append (s : String) : s ++ "_m0" = s ++ "_m" ++ "0" := by
  apply string_eq_of_data
  rw [string_append_data, string_append_data, string_append_data, List.append_assoc]
  exact congrArg (fun l => s.data ++ l) (by decide)

/-- Decimal renderings of non-zero numbers differ from that of zero. -/
theorem decimalRepr_ne_zero {n : Nat} (hn : n ≠ 0) : decimalRepr n ≠ "0" := fun h =>
  hn (decimalRepr_inj n 0 (h.trans rfl))

/-- Every crud bind name of a row of `TripleNameOk` triples is a left-side
key, plain or with the `_m0` suffix. -/
theorem rowCrudNames_mem_char : ∀ (values0 : List Triple),
    (∀ t ∈ values0, TripleNameOk t) →
    ∀ n ∈ rowCrudNames values0, ∃ k ∈ lhsKeys values0, n = k ∨ n = k ++ "_m0" := by
  intro values0
  induction values0 with
  | nil => intro _ n hn; exact absurd hn (List.not_mem_nil n)
  | cons t ts ih =>
    intro hok n hn
    have hcons : rowCrudNames (t :: ts) = tripleCrudNames t ++ rowCrudNames ts := rfl
    have hlk : lhsKeys (t :: ts) = t.1.keyStr :: lhsKeys ts := rfl
    rw [hcons] at hn
    rcases List.mem_append.mp hn with h1 | h2
    · rcases hok t (List.mem_cons_self _ _) with h | h | h
      · rw [h] at h1
        exact absurd h1 (List.not_mem_nil n)
      · rw [h] at h1
        refine ⟨t.1.keyStr, ?_, Or.inl (List.mem_singleton.mp h1)⟩
        rw [hlk]
        exact List.mem_cons_self _ _
      · rw [h] at h1
        refine ⟨t.1.keyStr, ?_, Or.inr (List.mem_singleton.mp h1)⟩
        rw [hlk]
        exact List.mem_cons_self _ _
    · obtain ⟨k, hk, hor⟩ := ih (fun x hx => hok x (List.mem_cons_of_mem _ hx)) n h2
      refine ⟨k, ?_, hor⟩
      rw [hlk]
      exact List.mem_cons_of_mem _ hk

/-- Row 0's crud bind names are pairwise distinct when its left-side keys
are distinct and underscore-free. -/
theorem row0_names_nodup : ∀ (values0 : List Triple),
    (lhsKeys values0).Nodup →
    (∀ k ∈ lhsKeys values0, underscoreFree k) →
    (∀ t ∈ values0, TripleNameOk t) →
    (rowCrudNames values0).Nodup := by
  intro values0
  induction values0 with
  | nil => intro _ _ _; exact List.nodup_nil
  | cons t ts ih =>
    intro hnd huf hok
    have hcons : rowCrudNames (t :: ts) = tripleCrudNames t ++ rowCrudNames ts := rfl
    have hlk : lhsKeys (t :: ts) = t.1.keyStr :: lhsKeys ts := rfl
    rw [hlk] at hnd huf
    have hmem : t.1.keyStr ∉ lhsKeys ts := (List.nodup_cons.mp hnd).1
    have hnd2 : (lhsKeys ts).Nodup := (List.nodup_cons.mp hnd).2
    have ihts := ih hnd2 (fun k hk => huf k (List.mem_cons_of_mem _ hk))
      (fun x hx => hok x (List.mem_cons_of_mem _ hx))
    have hchar := rowCrudNames_mem_char ts (fun x hx => hok x (List.mem_cons_of_mem _ hx))
    have hkuf : underscoreFree t.1.keyStr := huf _ (List.mem_cons_self _ _)
    rw [hcons]
    rcases hok t (List.mem_cons_self _ _) with h | h | h
    · rw [h, List.nil_append]
      exact ihts
    · rw [h]
      refine List.Nodup.append (List.nodup_singleton _) ihts ?_
      intro a ha hb
      have ha2 := List.mem_singleton.mp ha
      obtain ⟨k, hk, hor⟩ := hchar a hb
      rcases hor with h2 | h2
      · exact hmem (by rw [ha2.symm.trans h2]; exact hk)
      · have e := ha2.symm.trans h2
        rw [m0_append] at e
        exact uf_ne_suffixed hkuf e
    · rw [h]
      refine List.Nodup.append (List.nodup_singleton _) ihts ?_
      intro a ha hb
      have ha2 := List.mem_singleton.mp ha
      obtain ⟨k, hk, hor⟩ := hchar a hb
      have hk2 : underscoreFree k := huf k (List.mem_cons_of_mem _ hk)
      rcases hor with h2 | h2
      · have e := h2.symm.trans ha2
        rw [m0_append] at e
        exact uf_ne_suffixed hk2 e
      · have e := ha2.symm.trans h2
        rw [m0_append t.1.keyStr, m0_append k] at e
        obtain ⟨e1, _⟩ := genCollision hkuf hk2 e
        exact hmem (by rw [e1]; exact hk)

/-- Suffixing distinct underscore-free keys with the same `_m<i>` marker
keeps them distinct. -/
theorem suffixed_nodup (tags : List String) (d : String)
    (hnd : tags.Nodup) (huf : ∀ k ∈ tags, underscoreFree k) :
    (tags.map (fun k => k ++ "_m" ++ d)).Nodup :=
  List.Nodup.map_on (fun x hx y hy h => (genCollision (huf x hx) (huf y hy) h).1) hnd

/-- Row-0 names never collide with names suffixed for a later row. -/
theorem row0_disjoint_suffixed (values0 : List Triple) (tags : List String) (d : String)
    (hd : d ≠ "0")
    (huf : ∀ k ∈ lhsKeys values0, underscoreFree k)
    (hok : ∀ t ∈ values0, TripleNameOk t)
    (htags : ∀ k ∈ tags, underscoreFree k) :
    List.Disjoint (rowCrudNames values0) (tags.map (fun k => k ++ "_m" ++ d)) := by
  intro a ha hb
  obtain ⟨k, hk, hor⟩ := rowCrudNames_mem_char values0 hok a ha
  obtain ⟨k2, hk2, hb2⟩ := List.mem_map.mp hb
  rcases hor with h | h
  · exact uf_ne_suffixed (huf k hk) (h.symm.trans hb2.symm)
  · have e := h.symm.trans hb2.symm
    rw [m0_append k] at e
    obtain ⟨_, h2⟩ := genCollision (huf k hk) (htags k2 hk2) e
    exact hd h2.symm

/-- Names suffixed for two different row positions never collide. -/
theorem suffixed_disjoint (tags tags2 : List String) (d d2 : String) (hdd : d ≠ d2)
    (huf : ∀ k ∈ tags, underscoreFree k) (huf2 : ∀ k ∈ tags2, underscoreFree k) :
    List.Disjoint (tags.map (fun k => k ++ "_m" ++ d))
      (tags2.map (fun k => k ++ "_m" ++ d2)) := by
  intro a ha hb
  obtain ⟨k, hk, hka⟩ := List.mem_map.mp ha
  obtain ⟨k2, hk2, hkb⟩ := List.mem_map.mp hb
  obtain ⟨_, h2⟩ := genCollision (huf k hk) (huf2 k2 hk2) (hka.trans hkb.symm)
  exact hdd h2

/-- C8 (amended): a batched INSERT of N declared rows whose compile
succeeds — with no compiled column keys, no insert-from-select, no
ordered-values setting, every row-0 key resolving to a column, and the
table's column keys pairwise distinct and underscore-free — produces
exactly N triple sequences, all replaying row 0's left-hand column list in
order, and every engine-generated crud bind name across all rows is
pairwise distinct. Without the underscore-free restriction the uniqueness
clause fails, because `"%s_m%d"` suffixing can make a suffixed name
coincide with another column's literal key (see the counterexample). -/
theorem C8_batch_shape (comp : CompilerIn) (stmt : Stmt) (cs : CompileState)
    (toplevel : Bool) (r0 : List (DMLCol × RawVal)) (rest : List (List (DMLCol × RawVal)))
    (r : CrudResult)
    (hins : cs.isinsert = true)
    (hps : cs.paramSource = ParamSource.multi (r0 :: rest))
    (hck : comp.column_keys = none)
    (hsel : stmt.select_names = none)
    (hpo : cs.parameter_ordering = none)
    (hnd : (stmt.table.columns.map Column.key).Nodup)
    (huf : ∀ k ∈ stmt.table.columns.map Column.key, underscoreFree k)
    (hkeys : ∀ kv ∈ r0, _column_as_key cs kv.1 ≠ none)
    (hok : _get_crud_params comp stmt cs toplevel = Except.ok r) :
    r.all_multi_params.length = rest.length + 1
    ∧ (∀ seq ∈ r.all_multi_params,
        seq.map (fun t => t.1) = r.single_params.map (fun t => t.1))
    ∧ (allCrudNames r).Nodup := by
  obtain ⟨sp, hsp, hspv⟩ : ∃ sp,
      _crud_scan_phase ⟨comp, stmt, cs, toplevel⟩ = Except.ok sp
      ∧ sp.values = (_scan_cols ⟨comp, stmt, cs, toplevel⟩ []
          { parameters := (_get_stmt_parameter_tuples_params ⟨comp, stmt, cs, toplevel⟩
              [] r0 []).1, values := [], acc := {} }).values :=
    ⟨_, scan_phase_multi comp stmt cs toplevel r0 rest hins hps hck hsel hkeys, rfl⟩
  have hfast : (comp.column_keys.isNone && cs.paramSource.isNoParams) = false := by
    rw [hps]
    simp [ParamSource.isNoParams]
  cases hbadq : unconsumedCheckKeys ⟨comp, stmt, cs, toplevel⟩ sp.parameters sp.tuples
      sp.check_columns with
  | cons x xs =>
    rw [getCrudParamsUnconsumed comp stmt cs toplevel sp hsp hfast
      (by rw [hbadq]; exact List.cons_ne_nil x xs)] at hok
    exact Except.noConfusion hok
  | nil =>
    have hcore := getCrudParamsCore comp stmt cs toplevel sp hsp hfast hbadq
    have hm : cs.paramSource.hasMulti = true := by
      rw [hps]
      rfl
    have hrows : cs.paramSource.rows = r0 :: rest := by
      rw [hps]
      rfl
    rw [hcore] at hok
    simp only [hm, if_true] at hok
    rw [hrows] at hok
    cases hx : _extend_values_for_multiparams ⟨comp, stmt, cs, toplevel⟩ sp.values
        (r0 :: rest) sp.acc with
    | error e =>
      rw [hx] at hok
      simp only [Except.map] at hok
      exact Except.noConfusion hok
    | ok p =>
      rw [hx] at hok
      simp only [Except.map] at hok
      have hr : r = { single_params := sp.values, all_multi_params := p.1, acc := p.2,
                      insert_from_select_extra := sp.ifs_extra } := (Except.ok.inj hok).symm
      obtain ⟨exts, hp1, hlen, hlhs, htags⟩ :=
        extend_values_tags ⟨comp, stmt, cs, toplevel⟩ sp.values (r0 :: rest) sp.acc p hx
      have hlen2 : exts.length = rest.length := hlen
      have hcol : _scan_cols_collist ⟨comp, stmt, cs, toplevel⟩ = stmt.table.columns := by
        simp only [_scan_cols_collist, hpo]
      obtain ⟨new, hnew, hsub, hokt⟩ :=
        scan_fold_tags ⟨comp, stmt, cs, toplevel⟩ (Ctx.retmod ⟨comp, stmt, cs, toplevel⟩)
          [] hins hm stmt.table.columns
          { parameters := (_get_stmt_parameter_tuples_params ⟨comp, stmt, cs, toplevel⟩
              [] r0 []).1, values := [], acc := {} }
      have hv : sp.values = new := by
        rw [hspv]
        show ((_scan_cols_collist ⟨comp, stmt, cs, toplevel⟩).foldl
          (_scan_cols_step ⟨comp, stmt, cs, toplevel⟩
            (Ctx.retmod ⟨comp, stmt, cs, toplevel⟩) [])
          { parameters := (_get_stmt_parameter_tuples_params ⟨comp, stmt, cs, toplevel⟩
              [] r0 []).1, values := [], acc := {} }).values = new
        rw [hcol, hnew]
        simp
      have hsubkeys : List.Sublist (lhsKeys sp.values) (stmt.table.columns.map Column.key) := by
        rw [hv]
        exact hsub
      have hnd0 : (lhsKeys sp.values).Nodup := List.Nodup.sublist hsubkeys hnd
      have huf0 : ∀ k ∈ lhsKeys sp.values, underscoreFree k := fun k hk =>
        huf k (hsubkeys.subset hk)
      have hok0 : ∀ t ∈ sp.values, TripleNameOk t := by
        rw [hv]
        exact hokt
      refine ⟨?_, ?_, ?_⟩
      · rw [hr]
        show p.1.length = rest.length + 1
        rw [hp1, List.length_cons, hlen2]
      · intro seq hseq
        have hseq2 : seq ∈ sp.values :: exts := by
          rw [← hp1]
          rw [hr] at hseq
          exact hseq
        have hgoal : seq.map (fun t => t.1) = sp.values.map (fun t => t.1) := by
          rcases List.mem_cons.mp hseq2 with h0 | hmem
          · rw [h0]
          · exact hlhs seq hmem
        rw [hr]
        exact hgoal
      · have hAll : allCrudNames r = ((sp.values :: exts).map rowCrudNames).flatten := by
          rw [hr]
          simp only [allCrudNames, hp1, List.isEmpty_cons, Bool.false_eq_true, if_false]
        rw [hAll]
        refine List.nodup_flatten.mpr ⟨?_, ?_⟩
        · intro l hl
          rcases List.mem_map.mp hl with ⟨row, hrow, hrfl⟩
          rcases List.mem_cons.mp hrow with h0 | hmem
          · rw [← hrfl, h0]
            exact row0_names_nodup sp.values hnd0 huf0 hok0
          · obtain ⟨⟨j, hj⟩, hget⟩ := List.mem_iff_get.mp hmem
            obtain ⟨tags, ht1, ht2⟩ := htags j hj
            rw [← hrfl, ← hget, ht1]
            exact suffixed_nodup tags (decimalRepr (1 + j))
              (List.Nodup.sublist ht2 hnd0) (fun k hk => huf0 k (ht2.subset hk))
        · rw [List.pairwise_map]
          refine List.pairwise_cons.mpr ⟨?_, ?_⟩
          · intro row hmem
            obtain ⟨⟨j, hj⟩, hget⟩ := List.mem_iff_get.mp hmem
            obtain ⟨tags, ht1, ht2⟩ := htags j hj
            rw [← hget, ht1]
            exact row0_disjoint_suffixed sp.values tags (decimalRepr (1 + j))
              (decimalRepr_ne_zero (by omega)) huf0 hok0
              (fun k hk => huf0 k (ht2.subset hk))
          · refine List.pairwise_iff_get.mpr ?_
            intro i j hij
            obtain ⟨i, hi⟩ := i
            obtain ⟨j, hj⟩ := j
            obtain ⟨tagsi, hti1, hti2⟩ := htags i hi
            obtain ⟨tagsj, htj1, htj2⟩ := htags j hj
            rw [hti1, htj1]
            refine suffixed_disjoint tagsi tagsj (decimalRepr (1 + i)) (decimalRepr (1 + j))
              (fun h => ?_) (fun k hk => huf0 k (hti2.subset hk))
              (fun k hk => huf0 k (htj2.subset hk))
            have he := decimalRepr_inj (1 + i) (1 + j) h
            have hij2 : i < j := hij
            omega

/-- Counterexample to C8 as stated: with a column literally named `a_m1`
alongside a column `a`, a two-row batch generates the bind name `a_m1`
twice — once as row 0's prefetch bind for column `a_m1` and once as row
1's value bind for column `a` — so the generated names are not pairwise
distinct. -/
theorem C8_counterexample :
    (_get_crud_params (mkComp dialNone none false) (mkInsStmt exTabC8)
        (mkInsCS (ParamSource.multi [rowC8, rowC8])) true).toOption.map allCrudNames
      = some ["a_m0", "a_m1", "a_m1", "a_m1_m1"]
    ∧ ¬ (["a_m0", "a_m1", "a_m1", "a_m1_m1"] : List String).Nodup :=
  ⟨by decide, by decide⟩

/-- Witness for C8 amended: a two-row batch over underscore-free columns
`a` (declared) and `b` (procedural default) yields two sequences sharing
row 0's column list, with pairwise-distinct generated bind names. -/
theorem C8_witness :
    resW8.all_multi_params.length = 2
    ∧ (∀ seq ∈ resW8.all_multi_params,
        seq.map (fun t => t.1) = resW8.single_params.map (fun t => t.1))
    ∧ (allCrudNames resW8).Nodup :=
  C8_batch_shape compW8 stmtW8 csW8 true rowW8 [rowW8] resW8 rfl rfl rfl rfl rfl
    (by decide) (by decide) (by decide) rfl

/-! ## C1: the returning-policy formulas -/

/-- C1: for every statement compile, the returning-policy flags computed by
`_get_returning_modifiers` are exactly the spec's formulas: `need_pks`
equals `needGeneratedKeysSpec` (top-level ∧ insert ∧ not inline ∧ (not
batched ∨ (batched RETURNING supported ∧ return-defaults requested)) ∧ no
explicit RETURNING ∧ not multi-row literal VALUES), and
`implicit_returning` equals `implicitReturningAvailableSpec`
(`needGeneratedKeysSpec` ∧ dialect implicit RETURNING ∧ table allows
implicit returning). -/
theorem C1_returning_policy (comp : CompilerIn) (stmt : Stmt) (cs : CompileState)
    (toplevel : Bool) :
    (_get_returning_modifiers comp stmt cs toplevel).need_pks
        = needGeneratedKeysSpec comp stmt cs toplevel
    ∧ (_get_returning_modifiers comp stmt cs toplevel).implicit_returning
        = implicitReturningAvailableSpec comp stmt cs toplevel :=
  ⟨rfl, rfl⟩

end SqlCrud
